import Mathlib

/-!
Verification of the search_service conversation-state store and answer-routing
logic against its natural-language specification.

The Python source is shallowly embedded:
* redis keys/values become association lists over `String` keys;
* the redis backend's availability is an explicit `Bool`; operations that the
  source leaves unguarded return `Except`, operations wrapped in
  `try/except: pass` (or `return 0`) are total;
* calls to the external embedding / completion model, the Mongo stores and the
  vector index are oracle parameters (their responses are inputs), matching the
  spec's "external collaborators, interface only" boundary; per-call effect
  counters record how often each collaborator is invoked;
* wall-clock timestamps (`iso_utc_now`, `time.time`) are explicit parameters.
-/

namespace SearchService

/-! ## Association-list store primitives -/
/-- Lookup in an association list (first binding wins), the map behind each
redis key space. -/
def afind {α : Type} : List (String × α) → String → Option α
  | [], _ => none
  | (k, v) :: rest, key => if k = key then some v else afind rest key

/-- Set/overwrite a binding (redis `SET` / `ZADD` on one member). -/
def aset {α : Type} : List (String × α) → String → α → List (String × α)
  | [], key, v => [(key, v)]
  | (k, w) :: rest, key, v =>
    if k = key then (key, v) :: rest else (k, w) :: aset rest key v

/-- Remove a binding (redis `DEL` / `ZREM` on one member). -/
def aremove {α : Type} : List (String × α) → String → List (String × α)
  | [], _ => []
  | (k, w) :: rest, key =>
    if k = key then aremove rest key else (k, w) :: aremove rest key

@[simp] theorem afind_nil {α : Type} (key : String) :
    afind ([] : List (String × α)) key = none := rfl

/-! ## Python string-handling helpers used by the source -/
/-- Python truthiness of an `Optional[str]` (`None` and `""` are falsy). -/
def pyTruthy : Option String → Bool
  | none => false
  | some s => !(s = "")

/-- `str.lstrip`-style strip of leading characters satisfying `p`. -/
def lstripP (p : Char → Bool) : List Char → List Char
  | [] => []
  | c :: rest => if p c then lstripP p rest else c :: rest

/-- `str.rstrip`-style strip of trailing characters satisfying `p`. -/
def rstripP (p : Char → Bool) (l : List Char) : List Char :=
  (lstripP p l.reverse).reverse

/-- Python `str.strip(chars)` / `str.strip()` over a character predicate. -/
def stripP (p : Char → Bool) (l : List Char) : List Char :=
  rstripP p (lstripP p l)

/-- Python `s.strip()` on a `String`. -/
def pyStrip (s : String) : String :=
  ⟨stripP (fun c => c.isWhitespace) s.data⟩

/-- Python `s.strip(chars)` on a `String` for an explicit character set. -/
def pyStripChars (chars : List Char) (s : String) : String :=
  ⟨stripP (fun c => chars.contains c) s.data⟩

/-- `re.sub(r"\s+", " ", s)`: collapse every whitespace run to one space. -/
def collapseWs (s : String) : String :=
  ⟨((s.data.foldl
      (fun (acc : List Char × Bool) c =>
        if c.isWhitespace then
          (if acc.2 then acc else (' ' :: acc.1, true))
        else (c :: acc.1, false))
      ([], false)).1).reverse⟩

/-- Does `hay` start with `needle` (`list` prefix test on characters)? -/
def listBeginsWith : List Char → List Char → Bool
  | [], _ => true
  | _ :: _, [] => false
  | a :: as, b :: bs => a = b && listBeginsWith as bs

/-- `str.startswith`, computed on code points. -/
def strStartsWith (s pre : String) : Bool :=
  listBeginsWith pre.data s.data

/-- Python `s[n:]` on code points. -/
def strDrop (n : Nat) (s : String) : String :=
  ⟨s.data.drop n⟩

/-- Python `needle in hay` substring test on character lists. -/
def listContains (needle : List Char) : List Char → Bool
  | [] => needle.isEmpty
  | b :: hs => listBeginsWith needle (b :: hs) || listContains needle hs

/-- Lower-case the characters of a string (used for the case-insensitive
fallback-phrase matching). -/
def lowerStr (s : String) : List Char :=
  s.data.map Char.toLower

/-- Python `l[-n:]` (redis `LRANGE key -n -1`): the last `n` elements. -/
def lastN {α : Type} (n : Nat) (l : List α) : List α :=
  l.drop (l.length - n)

/-! ## Data model

`HistoryEntry` is the JSON blob appended per turn (`push_history_item` stores
`question/answer/ts/tags/document_ids`; the `/search` endpoint stores only
`question/answer/ts`, which every in-repo reader decodes with the same defaults
as an empty `tags`/`document_ids`, so both are represented uniformly).
`ChatMeta` is the `chatmeta:*` JSON blob; a JSON key that may be absent is an
`Option`. -/
structure Tag where
  name : String
  file_url : String
  deriving DecidableEq, Repr

structure HistoryEntry where
  question : String
  answer : String
  ts : String
  tags : List Tag
  document_ids : List String
  deriving DecidableEq, Repr

structure ChatMeta where
  created : Option String
  last_activity : Option String
  title : Option String
  user_id : Option String
  document_ids : List String
  deriving DecidableEq, Repr

/-- The meta blob `{}` (all JSON keys absent). -/
def emptyMeta : ChatMeta := ⟨none, none, none, none, []⟩

/-- The redis backend: history lists, meta blobs and the `chat:order` sorted
set, each keyed by the strings the key codec produces.  Scores are the numeric
timestamps `time.time()` returns, modelled as `Nat`. -/
structure Store where
  history : List (String × List HistoryEntry)
  meta : List (String × ChatMeta)
  order : List (String × Nat)
  deriving Repr

/-- The empty backend. -/
def Store.empty : Store := ⟨[], [], []⟩

def historyAt (s : Store) (key : String) : List HistoryEntry :=
  (afind s.history key).getD []

/-- redis `EXISTS` on a history key (a redis list key exists iff it holds a
non-empty list; the operations below never store an empty one). -/
def histExists (s : Store) (key : String) : Bool :=
  (afind s.history key).isSome

def metaExists (s : Store) (key : String) : Bool :=
  (afind s.meta key).isSome

/-- Store unavailability: any unguarded redis call raises. -/
inductive StoreErr
  | unavailable
  deriving DecidableEq, Repr

/-- One round trip to the backend: succeeds iff the backend is up.  Source
code wrapped in `try/except: pass` catches this; unguarded calls propagate. -/
def rOp {α : Type} (up : Bool) (a : α) : Except StoreErr α :=
  if up then .ok a else .error .unavailable

/-! ## KeyCodec (redis_service.py lines 18-25) -/
def redis_key (chat_id chat_type : String) : String :=
  "chat:" ++ chat_type ++ ":" ++ chat_id

def chat_meta_key (chat_id chat_type : String) : String :=
  "chatmeta:" ++ chat_type ++ ":" ++ chat_id

def chat_order_member (chat_type chat_id : String) : String :=
  chat_type ++ ":" ++ chat_id

def DEFAULT_CHAT_TYPES : List String := ["question", "insight"]

/-! ## SessionStore / RecencyIndex operations (redis_service.py) -/
/-- `update_chat_order` (lines 27-31): `ZADD` guarded by `try/except: pass`,
so it never fails the caller. -/
def update_chat_order (s : Store) (up : Bool) (chat_type chat_id : String)
    (now : Nat) : Store :=
  if up then
    { s with order := aset s.order (chat_order_member chat_type chat_id) now }
  else s

/-- `remove_chat_order_member` (lines 33-41): `ZREM` of one member, or of the
members for every default chat type; guarded by `try/except: pass`. -/
def remove_chat_order_member (s : Store) (up : Bool) (chat_id : String)
    (chat_type : Option String) : Store :=
  if up then
    match chat_type with
    | some t => { s with order := aremove s.order (chat_order_member t chat_id) }
    | none =>
      let order' := DEFAULT_CHAT_TYPES.foldl
        (fun acc t => aremove acc (chat_order_member t chat_id)) s.order
      { s with order := order' }
  else s

/-- `is_orphan` (lines 43-47): neither the history key nor the meta key
exists. -/
def is_orphan (s : Store) (chat_type chat_id : String) : Bool :=
  !histExists s (redis_key chat_id chat_type)
    && !metaExists s (chat_meta_key chat_id chat_type)

/-- `build_chat_context` (lines 49-76): plain-text context from the last
`max_messages_per_type` entries of the selected history keys. -/
def build_chat_context (s : Store) (chat_id : String)
    (chat_type : Option String) (maxPerType : Nat) : String :=
  let keys := match chat_type with
    | some t => [redis_key chat_id t]
    | none => DEFAULT_CHAT_TYPES.map (fun t => redis_key chat_id t)
  let parts := (keys.map (fun k =>
    (lastN maxPerType (historyAt s k)).map (fun e =>
      "User: " ++ e.question ++ "\nAssistant: " ++ e.answer))).flatten
  String.intercalate "\n" parts

/-- `get_last_answer` (lines 78-86): the `answer` of the last history entry,
if any. -/
def get_last_answer (s : Store) (chat_type chat_id : String) : Option String :=
  (historyAt s (redis_key chat_id chat_type)).getLast?.map (fun e => e.answer)

/-- `update_chat_meta_on_message` (lines 99-122), as a pure map on the meta
blob: sets `created` only when absent, always refreshes `last_activity`,
overwrites `title` only with a truthy value (`setdefault` otherwise),
`setdefault`s `user_id`, and preserves `document_ids`. -/
def update_chat_meta_on_message (old : Option ChatMeta) (title : Option String)
    (now : String) : ChatMeta :=
  let meta := old.getD emptyMeta
  { created := some (meta.created.getD now)
    last_activity := some now
    title := if pyTruthy title then title else some (meta.title.getD "Conversation")
    user_id := some (meta.user_id.getD "admin")
    document_ids := meta.document_ids }

/-- `update_chat_meta_on_message` as a store operation.  The redis `GET`/`SET`
round trips are not guarded in the source, so they propagate failure. -/
def update_chat_meta_on_message_store (s : Store) (up : Bool)
    (chat_id chat_type : String) (title : Option String) (now : String) :
    Except StoreErr Store :=
  match rOp up () with
  | .error e => .error e
  | .ok _ =>
    let key := chat_meta_key chat_id chat_type
    let m := update_chat_meta_on_message (afind s.meta key) title now
    .ok { s with meta := aset s.meta key m }

/-- `add_doc_ids_to_chat_meta` (lines 124-145): the blob that would be written
back, or `none` when the source returns without writing (`doc_ids` empty, or
no id is new).  Membership is tested against the ids already present; new ids
are appended in input order. -/
def add_doc_ids_write (old : Option ChatMeta) (doc_ids : List String) :
    Option ChatMeta :=
  if doc_ids = [] then none
  else
    let meta := old.getD emptyMeta
    let new_ids := doc_ids.filter (fun d => !meta.document_ids.contains d)
    if new_ids = [] then none
    else some { meta with document_ids := meta.document_ids ++ new_ids }

/-- The meta blob state after `add_doc_ids_to_chat_meta` (the written blob
when a write happens, the old state otherwise). -/
def metaAfterAddDocIds (old : Option ChatMeta) (doc_ids : List String) :
    Option ChatMeta :=
  match add_doc_ids_write old doc_ids with
  | some m => some m
  | none => old

/-- `add_doc_ids_to_chat_meta` as a store operation (its body is wrapped in
`try/except: pass`, so an unavailable backend leaves the store unchanged). -/
def add_doc_ids_store (s : Store) (up : Bool) (chat_id chat_type : String)
    (doc_ids : List String) : Store :=
  if up then
    let key := chat_meta_key chat_id chat_type
    match add_doc_ids_write (afind s.meta key) doc_ids with
    | some m => { s with meta := aset s.meta key m }
    | none => s
  else s

/-- `push_history_item` (lines 292-318): builds the turn blob and `RPUSH`es
it; the `RPUSH` is wrapped in `try/except: return 0`, so a store failure is
swallowed and reported as a `0` length.  (The optional `extra` dict is unused
by the flows under verification.) -/
def push_history_item (s : Store) (up : Bool)
    (chat_id chat_type question answer : String) (tags : List Tag)
    (document_ids : List String) (ts : String) : Store × Nat :=
  let entry : HistoryEntry :=
    { question := question, answer := answer, ts := ts
      tags := tags, document_ids := document_ids }
  match rOp up () with
  | .ok _ =>
    let key := redis_key chat_id chat_type
    let newList := historyAt s key ++ [entry]
    ({ s with history := aset s.history key newList }, newList.length)
  | .error _ => (s, 0)

/-! ## TitleResolver (openai_service.py lines 25-50) -/
/-- `generate_chat_title`: post-processes the completion provider's reply
(strip, quote-strip, whitespace-collapse, 60-character cap); the whole body is
wrapped in `try/except: return "Conversation"`, so any provider failure yields
the fixed placeholder.  `llm` is the provider's reply; `none` means the
provider call raised. -/
def generate_chat_title (llm : Option String) : String :=
  match llm with
  | none => "Conversation"
  | some raw =>
    let title := pyStrip raw
    let title := pyStripChars ['"'] title
    let title := pyStripChars ['\''] title
    let title := collapseWs title
    if title.length > 60 then
      (⟨rstripP (fun c => c.isWhitespace) (title.take 57).data⟩ : String) ++ "..."
    else title

/-! ## FallbackClassifier

There is no classifier function in `src/`: the canonical "no evidence" texts
appear only as literals inside `search_service.py` (document prompt / JSON
fallback, lines 101 and 169, and the vector fallback, line 220) and
`search_api.py`/`file_upload.py` prompts.  The classifier itself is therefore
modelled from the spec. -/
/-- Modelled from the spec: the fixed list of canonical "no evidence" phrases
of `FallbackClassifier` (§4.4); the example phrases are the ones the source
embeds in its prompts and fallback literals. -/
def canonical_no_evidence_phrases : List String :=
  ["I cannot answer based on the provided documents",
   "no relevant indexed documents were found",
   "I do not have that specific information"]

/-- Modelled from the spec: `FallbackClassifier.IsFallback` (§4.4) — true iff
the answer is empty or contains one of the canonical phrases as a
case-insensitive substring. -/
def IsFallback (answerText : String) : Bool :=
  answerText = ""
    || canonical_no_evidence_phrases.any
        (fun p => listContains (lowerStr p) (lowerStr answerText))

/-- Modelled from the spec: the RetrievalRouter's fallback-handling step
(§4.5 step 4), which is the missing caller of `push_history_item` and
`add_doc_ids_to_chat_meta` (no caller of either exists under `src/`): the path
result is classified; on a fallback the turn is recorded verbatim with empty
tags and document ids and no meta merge, otherwise tags are stored and the
turn's document ids merged into meta. -/
def runTurnBookkeeping (s : Store) (chat_id chat_type question answer : String)
    (tags : List Tag) (doc_ids : List String) (ts : String) : Store :=
  if IsFallback answer then
    (push_history_item s true chat_id chat_type question answer [] [] ts).1
  else
    let s1 := (push_history_item s true chat_id chat_type question answer tags doc_ids ts).1
    add_doc_ids_store s1 true chat_id chat_type doc_ids

/-! ## Vector path of the service layer (search_service.py lines 180-318)

Prompt construction (including `_limit_chat_context`) only feeds the external
completion provider, whose reply is the oracle input `llmAnswerRaw`; the
pipeline's `$vectorSearch` stage is the external knowledge-base collaborator,
whose ranked candidates (record, similarity score) are the oracle input. -/
structure NamesDict where
  names : List String
  deriving DecidableEq, Repr

structure KbRecord where
  detailed_answer : String
  follow_up_question_1 : Option String
  follow_up_question_2 : Option String
  follow_up_question_3 : Option String
  tags : List NamesDict
  file_url : String
  deriving Repr

/-- The `$match` stage's minimum similarity (`{"$gt": 0.75}`). -/
def SIMILARITY_THRESHOLD : ℚ := 3 / 4

/-- The aggregate of `vector_search` (lines 194-216): top-1 candidate
(`"limit": 1`), kept only above the similarity threshold. -/
def vsPipeline (candidates : List (KbRecord × ℚ)) : List (KbRecord × ℚ) :=
  (candidates.take 1).filter (fun rs => decide (SIMILARITY_THRESHOLD < rs.2))

inductive RunErr
  | indexError
  deriving DecidableEq, Repr

structure VsEffects where
  embedCalls : Nat
  completionCalls : Nat
  deriving DecidableEq, Repr

/-- The verbatim fallback text of `vector_search` (line 220). -/
def VECTOR_NO_MATCH_FALLBACK : String :=
  "I cannot answer based on stored knowledge: no relevant indexed documents were found. You may upload a document related to your question."

/-- `for i in range(1, 4): if best.get(k): ...` — collect the truthy
follow-up fields in order. -/
def truthyStrings (l : List (Option String)) : List String :=
  l.foldr (fun o acc => if pyTruthy o then o.getD "" :: acc else acc) []

/-- `vector_search` (search_service.py lines 180-318).  The embedding call
always happens first; with no pipeline result the canonical fallback 4-tuple
is returned with **no** completion call; otherwise the completion provider
phrases the answer, follow-ups come from the record, and the final tags are
rebuilt from `tags[0]["names"]` (line 310 — which raises `IndexError` when
the record's `tags` list is empty; the names-normalization block of lines
225-252 is dead, its result being shadowed at line 310 before use). -/
def vector_search (candidates : List (KbRecord × ℚ)) (llmAnswerRaw : String)
    (config_filenames : List (String × String)) :
    Except RunErr (String × List String × List Tag × String) × VsEffects :=
  let results := vsPipeline candidates
  match results with
  | [] => (.ok (VECTOR_NO_MATCH_FALLBACK, [], [], ""), ⟨1, 0⟩)
  | best :: _ =>
    let r := best.1
    let follow_up_questions := truthyStrings
      [r.follow_up_question_1, r.follow_up_question_2, r.follow_up_question_3]
    let final_answer := pyStrip llmAnswerRaw
    match r.tags.head? with
    | none => (.error .indexError, ⟨1, 1⟩)
    | some d0 =>
      let final_tags := d0.names.map (fun n =>
        if n.endsWith ".pdf" then Tag.mk n ((afind config_filenames n).getD "")
        else Tag.mk n "")
      (.ok (final_answer, follow_up_questions, final_tags, r.file_url), ⟨1, 1⟩)

/-! ## Document path of the service layer (search_service.py lines 55-178)

The constrained document prompt asks the completion provider for a structured
JSON reply (`HAS_ANSWER` flag + `ANSWER` + `FOLLOW_UP_QUESTIONS`); the
provider's reply after the `extract_json`/`json.loads` normalization is the
oracle input (`none` = the reply was not parseable JSON, `parsed = {}`). -/
/-- A Mongo `upload` record (`{id, file_name, text}`); an absent or empty
`file_name` is modelled as `""` (both are falsy for the `or "Unnamed"`). -/
structure UploadDoc where
  id : String
  file_name : String
  text : String
  deriving DecidableEq, Repr

/-- The JSON `ANSWER` field: a string, a list of strings, or anything else
(absent / other type). -/
inductive AnsField
  | strVal (s : String)
  | listVal (l : List String)
  | otherVal
  deriving DecidableEq, Repr

/-- The parsed JSON reply of the document prompt. -/
structure DocLlmParsed where
  has_answer_is_true : Bool
  ans : AnsField
  follow_ups : Option (List String)
  deriving DecidableEq, Repr

/-- `doc_tags` collection (lines 63-67): first-seen-deduplicated display
names, an empty name replaced by `"Unnamed"`. -/
def docTagsOf (docs : List UploadDoc) : List String :=
  docs.foldl (fun acc d =>
    let fn := if d.file_name = "" then "Unnamed" else d.file_name
    if acc.contains fn then acc else acc ++ [fn]) []

/-- `document_search` (lines 55-178) from the parsed reply onward: joins a
list-valued `ANSWER`, falls back to the canonical document-path "no answer"
text when the reply was unparseable, clears follow-ups when `HAS_ANSWER` is
not True, and tags every non-blank document display name.  Returns
`(answer_text, follow_up_questions, tags, has_answer)`; the completion
provider is called exactly once. -/
def document_search (docs : List UploadDoc) (uploadOk : Bool)
    (parsed : Option DocLlmParsed) :
    (String × List String × List Tag × Bool) × Nat :=
  let doc_tags := if uploadOk then docTagsOf docs else []
  let has_answer := match parsed with
    | some p => p.has_answer_is_true
    | none => false
  let answer_text := match parsed with
    | some p =>
      match p.ans with
      | .strVal sv => pyStrip sv
      | .listVal l => String.intercalate "\n"
          ((l.map pyStrip).filter (fun x => !(x = "")))
      | .otherVal => ""
    | none => ""
  let follow_up_questions := match parsed with
    | some p =>
      match p.follow_ups with
      | some l => ((l.map pyStrip).filter (fun x => !(x = ""))).take 3
      | none => []
    | none => []
  let (has_answer, answer_text, follow_up_questions) :=
    match parsed with
    | none => (false, "I cannot answer based on the provided documents.", ([] : List String))
    | some _ => (has_answer, answer_text, follow_up_questions)
  let follow_up_questions := if !has_answer then [] else follow_up_questions
  let tags := (doc_tags.filter (fun n => !(pyStrip n = ""))).map
    (fun n => Tag.mk (pyStrip n) "")
  ((answer_text, follow_up_questions, tags, has_answer), 1)

/-! ## The mounted `/search` endpoint (api/search_api.py lines 30-257)

`models/model.py`'s `QuestionRequest` declares no `document_ids` field, yet
line 39 reads `request.document_ids`; request-schema validation is HTTP
plumbing outside the verified scope, so the request is modelled with the
optional field the route code requires.  All prompt text flows only to the
external completion provider, whose replies are oracle inputs. -/
inductive CType
  | question
  | insight
  deriving DecidableEq, Repr

def CType.str : CType → String
  | .question => "question"
  | .insight => "insight"

structure QuestionRequest where
  question : String
  chat_id : Option String
  chat_type : CType
  document_ids : Option (List String)
  deriving DecidableEq, Repr

/-- A knowledge-bank record as the endpoint's aggregate projects it (lines
147-155); `tags` is the raw stored string.  Note this endpoint pipeline has
no `$match` similarity stage. -/
structure EpKbRecord where
  detailed_answer : String
  follow_up_question_1 : Option String
  follow_up_question_2 : Option String
  follow_up_question_3 : Option String
  tags : String
  deriving DecidableEq, Repr

inductive ApiErr
  | http (status : Nat)
  | store
  deriving DecidableEq, Repr

structure ApiEffects where
  embedCalls : Nat
  vectorAggCalls : Nat
  completionCalls : Nat
  titleGenCalls : Nat
  deriving DecidableEq, Repr

inductive RoutePath
  | document
  | vector
  deriving DecidableEq, Repr

structure RouteOut where
  path : RoutePath
  final_answer : String
  follow_up_questions : List String
  tags : List String
  deriving DecidableEq, Repr

structure SearchResponse where
  question : String
  answer : String
  follow_up_questions : List String
  chat_id : String
  chat_type : CType
  title : Option String
  tags : List String
  deriving DecidableEq, Repr

/-- External-collaborator replies consumed by one `/search` call. -/
structure SearchOracles where
  uuid : String
  docLlmRaw : String
  vecLlmRaw : String
  titleLlm : Option String
  uploadDocs : List UploadDoc
  uploadOk : Bool
  kbResults : List EpKbRecord
  deriving DecidableEq, Repr

/-- `re.sub(r"^\d+[\).]?\s*", "", line)`: leading digits, one optional `)`
or `.`, then whitespace. -/
def stripNumericLead (l : List Char) : List Char :=
  let l1 := l.dropWhile (fun c => c.isDigit)
  let l2 := match l1 with
    | c :: rest => if c = ')' || c = '.' then rest else l1
    | [] => l1
  l2.dropWhile (fun c => c.isWhitespace)

/-- One line of the `FOLLOW_UP_QUESTIONS:` block (lines 116-123). -/
def parseFollowUpLine (line : String) : Option String :=
  let line := pyStrip line
  if line = "" then none
  else
    let line :=
      if (line.data.head?.map Char.isDigit).getD false
      then (⟨stripNumericLead line.data⟩ : String) else line
    if line = "" then none else some line

/-- Splitting the doc-branch completion reply into answer text and at most
three follow-up questions (lines 111-127; `str.splitlines` is modelled on
`"\n"`). -/
def parseDocAnswer (raw : String) : String × List String :=
  match raw.splitOn "FOLLOW_UP_QUESTIONS:" with
  | [] => (raw, [])
  | [_] => (raw, [])
  | ansPart :: rest =>
    let fuPart := String.intercalate "FOLLOW_UP_QUESTIONS:" rest
    let answer := pyStrip (ansPart.replace "ANSWER:" "")
    let fus := ((pyStrip fuPart).splitOn "\n").filterMap parseFollowUpLine
    (answer, fus.take 3)

/-- The endpoint's tag-string normalization (lines 162-166). -/
def parseEndpointTags (raw : String) : List String :=
  if raw.startsWith "[" && raw.endsWith "]" then
    (((raw.drop 1).dropRight 1).splitOn ",").filterMap (fun t =>
      let t' := pyStripChars [' ', '\'', '"'] t
      if t' = "" then none else some t')
  else
    (raw.splitOn ",").filterMap (fun t =>
      let t' := pyStrip t
      if t' = "" then none else some t')

/-- The routing half of `search_question` (lines 46-204): transient request
document ids select the document branch (upload-store fetch + one completion
call, zero vector-collaborator calls); otherwise the vector branch runs
(one embedding call + one aggregate; empty aggregate raises 404 **before**
any completion call). -/
def routeTurn (req : QuestionRequest) (orc : SearchOracles) :
    Except ApiErr RouteOut × ApiEffects :=
  let doc_ids := req.document_ids.getD []
  if !(doc_ids = []) then
    let doc_tags := if orc.uploadOk then docTagsOf orc.uploadDocs else []
    let raw := pyStrip orc.docLlmRaw
    let pa := parseDocAnswer raw
    (.ok ⟨.document, pa.1, pa.2, doc_tags⟩, ⟨0, 0, 1, 0⟩)
  else
    match orc.kbResults with
    | [] => (.error (.http 404), ⟨1, 1, 0, 0⟩)
    | best :: _ =>
      let tags := parseEndpointTags best.tags
      let follow_ups := truthyStrings
        [best.follow_up_question_1, best.follow_up_question_2,
         best.follow_up_question_3]
      (.ok ⟨.vector, pyStrip orc.vecLlmRaw, follow_ups, tags⟩, ⟨1, 1, 1, 0⟩)

/-- The history append of `search_question` line 209 (`RPUSH` of the
`question/answer/ts` blob). -/
def finalizeAppend (s : Store) (key : String) (e : HistoryEntry) : Store :=
  { s with history := aset s.history key (historyAt s key ++ [e]) }

/-- The non-first-turn title resolution of `search_question` lines 222-240:
reuse the stored meta title when truthy, otherwise derive one from the first
history entry's question (read after the append, as the source does), with
"Conversation" as the last resort. -/
def resolveStoredTitle (s1 : Store) (chat_id : String) (ct : CType) : Option String :=
  let stored := (afind s1.meta (chat_meta_key chat_id ct.str)).bind ChatMeta.title
  if pyTruthy stored then stored
  else
    match (historyAt s1 (redis_key chat_id ct.str)).head? with
    | some first =>
      let fq := pyStrip first.question
      some (if !(fq = "") && fq.length > 60 then fq.take 60 ++ "..."
            else if fq = "" then "Conversation" else fq)
    | none => some "Conversation"

/-- The title of a turn finalized on store `s` (lines 216-240): generated
only when the pre-append history was empty, otherwise resolved from storage. -/
def finalizeTitle (s : Store) (chat_id : String) (ct : CType)
    (titleLlm : Option String) (q a ni : String) : Option String :=
  if (historyAt s (redis_key chat_id ct.str)).length = 0
  then some (generate_chat_title titleLlm)
  else resolveStoredTitle (finalizeAppend s (redis_key chat_id ct.str) ⟨q, a, ni, [], []⟩) chat_id ct

/-- The store after a successful bookkeeping pass (lines 207-243): history
append, meta update, recency touch. -/
def finalizeStore (s : Store) (chat_id : String) (ct : CType) (q a : String)
    (titleLlm : Option String) (ni : String) (ns : Nat) : Store :=
  let s1 := finalizeAppend s (redis_key chat_id ct.str) ⟨q, a, ni, [], []⟩
  let title := finalizeTitle s chat_id ct titleLlm q a ni
  let s2 := { s1 with meta := aset s1.meta (chat_meta_key chat_id ct.str) (update_chat_meta_on_message (afind s1.meta (chat_meta_key chat_id ct.str)) title ni) }
  update_chat_order s2 true ct.str chat_id ns

/-- The bookkeeping half of `search_question` (lines 207-253), entered with
the answer already computed.  The `LLEN`/`RPUSH`, the meta `GET` and the meta
write are **unguarded** redis calls, so with the backend down the call raises
(`.error .store`) instead of returning the answer; only the recency `ZADD`
(`update_chat_order`) is guarded.  Returns the response and the number of
title-generator invocations.  (The `except` arm of lines 220-221 is dead:
`generate_chat_title` swallows every provider failure itself.) -/
def finalizeTurn (s : Store) (up : Bool) (chat_id : String) (ct : CType)
    (question final_answer : String) (follow_ups tags : List String)
    (titleLlm : Option String) (nowIso : String) (nowScore : Nat) :
    Except ApiErr (SearchResponse × Store) × Nat :=
  let list_key := redis_key chat_id ct.str
  match rOp up () with
  | .error _ => (.error .store, 0)
  | .ok _ =>
    let is_first := (historyAt s list_key).length = 0
    let s1 := finalizeAppend s list_key ⟨question, final_answer, nowIso, [], []⟩
    let title := if is_first then some (generate_chat_title titleLlm)
                 else resolveStoredTitle s1 chat_id ct
    let genCalls : Nat := if is_first then 1 else 0
    match update_chat_meta_on_message_store s1 up chat_id ct.str title nowIso with
    | .error _ => (.error .store, genCalls)
    | .ok s2 =>
      let s3 := update_chat_order s2 up ct.str chat_id nowScore
      (.ok (⟨question, final_answer, follow_ups, chat_id, ct, title, tags⟩, s3), genCalls)

/-- The full `search_question` endpoint (lines 30-257): chat-id resolution
(uuid when the supplied id is falsy), Mongo connection check, chat-context
read (an unguarded `LRANGE`), routing, then bookkeeping. -/
def searchQuestion (s : Store) (up mongoOk : Bool) (req : QuestionRequest)
    (orc : SearchOracles) (nowIso : String) (nowScore : Nat) :
    Except ApiErr (SearchResponse × Store) × ApiEffects :=
  let chat_id := if pyTruthy req.chat_id then req.chat_id.getD "" else orc.uuid
  if !mongoOk then (.error (.http 500), ⟨0, 0, 0, 0⟩)
  else
    match rOp up () with
    | .error _ => (.error .store, ⟨0, 0, 0, 0⟩)
    | .ok _ =>
      let _chat_context := build_chat_context s chat_id (some req.chat_type.str) 50
      match routeTurn req orc with
      | (.error e, eff) => (.error e, eff)
      | (.ok out, eff) =>
        match finalizeTurn s up chat_id req.chat_type req.question
            out.final_answer out.follow_up_questions out.tags orc.titleLlm
            nowIso nowScore with
        | (.error e, gen) => (.error e, { eff with titleGenCalls := eff.titleGenCalls + gen })
        | (.ok res, gen) => (.ok res, { eff with titleGenCalls := eff.titleGenCalls + gen })

/-- One conversation driven through `search_question` for a sequence of
turns (used to state the once-per-conversation title property). -/
structure TurnInput where
  question : String
  orc : SearchOracles
  nowIso : String
  nowScore : Nat
  docIds : Option (List String)

/-- Iterate `searchQuestion` over one conversation, with the backend and the
knowledge-bank connection up, accumulating the title-generator call count.
A failed call (e.g. a 404 vector miss) leaves the store unchanged, exactly as
an aborted request does. -/
def runSearchTurns (s : Store) (chat_id : String) (ct : CType) :
    List TurnInput → Store × Nat
  | [] => (s, 0)
  | i :: rest =>
    let req : QuestionRequest := ⟨i.question, some chat_id, ct, i.docIds⟩
    let r := searchQuestion s true true req i.orc i.nowIso i.nowScore
    let s' := match r.1 with
      | .ok (_, st) => st
      | .error _ => s
    let tail := runSearchTurns s' chat_id ct rest
    (tail.1, r.2.titleGenCalls + tail.2)

/-! ## The chats endpoints (api/chats.py)

Timestamp formatting/parsing (`to_iso`, `iso_utc_now`, `strptime`) is the
datetime library, treated as an external collaborator: `toIso` renders a
numeric score, `tsValid` is the `strptime` format check on a stored string,
`parseTs` the `strptime(...).timestamp()` parse, `nowIso`/`nowScore` the
current time. -/
structure HistoryItem where
  question : String
  answer : String
  ts : Option String
  deriving DecidableEq, Repr

structure HistoryResponse where
  chat_id : String
  chat_type : CType
  user_id : String
  chat_title : Option String
  history : List HistoryItem
  deriving DecidableEq, Repr

structure ChatListItem where
  chat_id : String
  title : String
  last_answer : Option String
  timestamp : Option String
  deriving DecidableEq, Repr

/-- `get_history` (chats.py lines 26-78).  Reads the full history and meta;
when **no** meta blob exists it writes a fresh one (`title`, `created = now`,
`user_id`) as a side effect.  Stored entries carry no `user_id` key (both
writers store `question/answer/ts[/tags/document_ids]`), so the `user_id`
scan of lines 52-57 leaves `"admin"`, and `HistoryItem(**data)` drops the
extra keys. -/
def getHistory (s : Store) (chat_id : String) (ct : CType) (now : String) :
    HistoryResponse × Store :=
  let key := redis_key chat_id ct.str
  let raw := historyAt s key
  let user_id := "admin"
  let meta_raw := afind s.meta (chat_meta_key chat_id ct.str)
  let (user_id, chat_title) := match meta_raw with
    | some m => (m.user_id.getD user_id, m.title)
    | none => (user_id, (none : Option String))
  let chat_title :=
    if !(pyTruthy chat_title) && !(raw = []) then
      match raw.head? with
      | some first =>
        let q := pyStrip first.question
        some (if q.length > 60 then q.take 60 ++ "..."
              else if q = "" then "Conversation" else q)
      | none => chat_title
    else chat_title
  let history_items := raw.map (fun e => HistoryItem.mk e.question e.answer (some e.ts))
  let s' := match meta_raw with
    | none =>
      let meta_save : ChatMeta :=
        { created := some now, last_activity := none
          title := some (if pyTruthy chat_title then chat_title.getD "" else "Conversation")
          user_id := some user_id, document_ids := [] }
      { s with meta := aset s.meta (chat_meta_key chat_id ct.str) meta_save }
    | some _ => s
  (⟨chat_id, ct, user_id, chat_title, history_items⟩, s')

/-! `ZREVRANGE chat:order 0 -1 WITHSCORES`: members in descending score
order.  Ties follow the backing structure's iteration order, which the spec's
tie-break rule leaves unspecified; a simple insertion sort models it. -/
def insertDescZ (x : String × Nat) : List (String × Nat) → List (String × Nat)
  | [] => [x]
  | y :: ys => if y.2 ≤ x.2 then x :: y :: ys else y :: insertDescZ x ys

def sortDescZ : List (String × Nat) → List (String × Nat)
  | [] => []
  | x :: xs => insertDescZ x (sortDescZ xs)

/-- Python `s.split(sep, 1)` on a single character, `none` when the
separator is absent (the `":" not in member` guard). -/
def splitFirstAux (sep : Char) : List Char → List Char → Option (String × String)
  | [], _ => none
  | c :: rest, acc =>
    if c = sep then some (⟨acc.reverse⟩, ⟨rest⟩)
    else splitFirstAux sep rest (c :: acc)

def pySplit1 (sep : Char) (s : String) : Option (String × String) :=
  splitFirstAux sep s.data []

/-- `allowed_types` membership (lines 88-92, 106-107). -/
def typeAllowed (inclQ inclI : Bool) (t : String) : Bool :=
  (inclQ && t = "question") || (inclI && t = "insight")

/-- Title fallback from the first history entry (lines 130-138): `none` on a
missing or blank first question. -/
def titleFromFirst (s : Store) (chat_type chat_id : String) : Option String :=
  match (historyAt s (redis_key chat_id chat_type)).head? with
  | some first =>
    let q := pyStrip first.question
    if !(q = "") && q.length > 60 then some (q.take 60 ++ "...")
    else if q = "" then none else some q
  | none => none

/-- The main listing loop of `list_chats` (lines 102-149) over the zset
snapshot: skips malformed members, disallowed kinds and duplicates; prunes
orphans from the index (self-healing) and skips them; otherwise resolves a
title and timestamp and emits a summary item. -/
def listLoop (inclQ inclI : Bool) (toIso : Nat → String)
    (tsValid : String → Bool) (nowIso : String) :
    List (String × Nat) → List String → Store → List ChatListItem →
    List ChatListItem × List String × Store
  | [], seen, s, acc => (acc, seen, s)
  | (member, score) :: rest, seen, s, acc =>
    match pySplit1 ':' member with
    | none => listLoop inclQ inclI toIso tsValid nowIso rest seen s acc
    | some (chat_type, chat_id) =>
      if !typeAllowed inclQ inclI chat_type then
        listLoop inclQ inclI toIso tsValid nowIso rest seen s acc
      else
        let uniq := chat_type ++ ":" ++ chat_id
        if seen.contains uniq then
          listLoop inclQ inclI toIso tsValid nowIso rest seen s acc
        else if is_orphan s chat_type chat_id then
          let s' := remove_chat_order_member s true chat_id (some chat_type)
          listLoop inclQ inclI toIso tsValid nowIso rest seen s' acc
        else
          let seen' := seen ++ [uniq]
          let meta_raw := afind s.meta (chat_meta_key chat_id chat_type)
          let last_activity_iso := match meta_raw with
            | some m =>
              match m.last_activity with
              | some la => if tsValid la then la else nowIso
              | none => toIso score
            | none => toIso score
          let title1 := match meta_raw with
            | some m => if pyTruthy m.title then m.title else none
            | none => none
          let title2 := if pyTruthy title1 then title1
                        else titleFromFirst s chat_type chat_id
          let title3 := if pyTruthy title2 then title2.getD "" else "Conversation"
          let item : ChatListItem := ⟨chat_id, title3, none, some last_activity_iso⟩
          listLoop inclQ inclI toIso tsValid nowIso rest seen' s (acc ++ [item])

/-- The history keys of one kind, as `KEYS chat:<t>:*` returns them. -/
def historyKeysOfType (s : Store) (t : String) : List String :=
  (s.history.map Prod.fst).filter (fun k => strStartsWith k ("chat:" ++ t ++ ":"))

/-- The re-indexing loop of `list_chats` (lines 151-173): histories of an
allowed kind not yet seen and not orphaned are (re)scored into the zset from
their last turn's timestamp, or the current time when unparseable. -/
def migrateLoop (parseTs : String → Option Nat) (nowScore : Nat) (t : String)
    (seen : List String) (s : Store) : Store :=
  (historyKeysOfType s t).foldl (fun acc key =>
    let chat_id := strDrop ("chat:" ++ t ++ ":").length key
    let uniq := t ++ ":" ++ chat_id
    if seen.contains uniq then acc
    else if is_orphan acc t chat_id then acc
    else
      let score := match (historyAt acc key).getLast? with
        | some last => (parseTs last.ts).getD nowScore
        | none => nowScore
      { acc with order := aset acc.order (t ++ ":" ++ chat_id) score }) s

/-- The `last_answer` fill of `list_chats` (lines 175-179). -/
def fillLastAnswer (s : Store) (item : ChatListItem) : ChatListItem :=
  if metaExists s (chat_meta_key item.chat_id "question") then
    { item with last_answer := get_last_answer s "question" item.chat_id }
  else if metaExists s (chat_meta_key item.chat_id "insight") then
    { item with last_answer := get_last_answer s "insight" item.chat_id }
  else item

/-- `list_chats` (chats.py lines 82-181).  (The `answer_expose_limit`
variable of lines 84-86 is unused by the rest of the function; Python's set
iteration order over `allowed_types` only permutes zset re-score writes.) -/
def listChats (s : Store) (include_insight include_question : Bool)
    (toIso : Nat → String) (tsValid : String → Bool) (nowIso : String)
    (parseTs : String → Option Nat) (nowScore : Nat) :
    List ChatListItem × Store :=
  let members := sortDescZ s.order
  let (results, seen, s1) :=
    listLoop include_question include_insight toIso tsValid nowIso members [] s []
  let ts := (if include_question then ["question"] else [])
    ++ (if include_insight then ["insight"] else [])
  let s2 := ts.foldl (fun acc t => migrateLoop parseTs nowScore t seen acc) s1
  (results.map (fillLastAnswer s2), s2)

/-- redis `DEL key`: the store without the binding, and the number of keys
actually removed (0 or 1). -/
def delKey {α : Type} (l : List (String × α)) (key : String) :
    List (String × α) × Nat :=
  match afind l key with
  | some _ => (aremove l key, 1)
  | none => (l, 0)

structure DeleteResult where
  message_lists_deleted : Nat
  meta_keys_deleted : Nat
  deriving DecidableEq, Repr

/-- One kind's deletions inside `delete_session` (lines 188-196): history
`DEL`, meta `DEL`, order-member removal. -/
def deleteSessionKind (s : Store) (chat_id : String) (t : String) :
    Store × Nat × Nat :=
  let h := (delKey s.history (redis_key chat_id t)).1
  let dh := (delKey s.history (redis_key chat_id t)).2
  let m := (delKey s.meta (chat_meta_key chat_id t)).1
  let dm := (delKey s.meta (chat_meta_key chat_id t)).2
  let s' := remove_chat_order_member { s with history := h, meta := m }
    true chat_id (some t)
  (s', dh, dm)

/-- `delete_session` (chats.py lines 183-212): deletes history and meta for
the requested kind (or both kinds), removes the recency members, returns the
per-kind removal counts, and raises 404 exactly when both counts are zero
(after one more defensive order-member removal). -/
def deleteSession (s : Store) (chat_id : String) (chat_type : Option CType) :
    Except ApiErr DeleteResult × Store :=
  let r1 := if chat_type = none ∨ chat_type = some CType.question then
      deleteSessionKind s chat_id "question" else (s, 0, 0)
  let s1 := r1.1
  let r2 := if chat_type = none ∨ chat_type = some CType.insight then
      deleteSessionKind s1 chat_id "insight" else (s1, 0, 0)
  let s2 := r2.1
  let deleted_lists := r1.2.1 + r2.2.1
  let deleted_meta := r1.2.2 + r2.2.2
  if deleted_lists + deleted_meta = 0 then
    let s3 := match chat_type with
      | some t => remove_chat_order_member s2 true chat_id (some t.str)
      | none => remove_chat_order_member s2 true chat_id none
    (.error (.http 404), s3)
  else (.ok ⟨deleted_lists, deleted_meta⟩, s2)

/-- The `document_ids` list visible in a meta blob state. -/
def docIdsOf : Option ChatMeta → List String
  | some m => m.document_ids
  | none => []

/-! ## Claim C5 -/
/-- The meta-mutating operations the service layer performs on one blob. -/
inductive MetaOp
  | putMeta (title : Option String) (now : String)
  | addDocs (ids : List String)

def applyMetaOp : Option ChatMeta → MetaOp → Option ChatMeta
  | m, .putMeta title now => some (update_chat_meta_on_message m title now)
  | m, .addDocs ids => metaAfterAddDocIds m ids

def applyMetaOps : Option ChatMeta → List MetaOp → Option ChatMeta :=
  List.foldl applyMetaOp

def createdOf : Option ChatMeta → Option String
  | some m => m.created
  | none => none

/-! ## Claim C7 -/
/-- The kinds a `delete_session` call processes. -/
def processedTypes : Option CType → List String
  | none => DEFAULT_CHAT_TYPES
  | some t => [t.str]

/-- The number of history keys present in `s` for the given kinds. -/
def histCountOf (s : Store) (cid : String) (ts : List String) : Nat :=
  (ts.map (fun t => if (afind s.history (redis_key cid t)).isSome then 1 else 0)).sum

/-- The number of meta keys present in `s` for the given kinds. -/
def metaCountOf (s : Store) (cid : String) (ts : List String) : Nat :=
  (ts.map (fun t => if (afind s.meta (chat_meta_key cid t)).isSome then 1 else 0)).sum

/-- A concrete two-conversation store for exercising delete-then-list. -/
def C7WStore : Store :=
  ⟨[(redis_key "a" "question", [⟨"qa", "aa", "T", [], []⟩]),
    (redis_key "b" "question", [⟨"qb", "ab", "T", [], []⟩])],
   [(chat_meta_key "a" "question", ⟨some "C", some "T", some "Ay", some "admin", []⟩),
    (chat_meta_key "b" "question", ⟨some "C", some "T", some "Bee", some "admin", []⟩)],
   [("question:a", 5), ("question:b", 3)]⟩

/-! ## Theorems -/

theorem afind_aset {α : Type} (l : List (String × α)) (k k' : String) (v : α) :
    afind (aset l k v) k' = if k = k' then some v else afind l k' := by
  induction l with
  | nil => simp [aset, afind]
  | cons hd tl ih =>
    obtain ⟨k0, v0⟩ := hd
    simp only [aset]
    by_cases h0 : k0 = k
    · subst h0
      simp only [if_pos rfl, afind]
      by_cases h : k0 = k' <;> simp [h]
    · simp only [if_neg h0, afind]
      by_cases h1 : k0 = k'
      · subst h1
        have hne : ¬k = k0 := fun hh => h0 hh.symm
        simp [hne]
      · simp [h1, ih]

theorem afind_aremove {α : Type} (l : List (String × α)) (k k' : String) :
    afind (aremove l k) k' = if k = k' then none else afind l k' := by
  induction l with
  | nil => simp [aremove, afind]
  | cons hd tl ih =>
    obtain ⟨k0, v0⟩ := hd
    simp only [aremove]
    by_cases h0 : k0 = k
    · subst h0
      simp only [if_true, eq_self_iff_true, ih, afind]
      by_cases h1 : k0 = k' <;> simp [h1]
    · simp only [if_neg h0, afind]
      by_cases h1 : k0 = k'
      · subst h1
        have hne : ¬k = k0 := fun hh => h0 hh.symm
        simp [hne]
      · simp [h1, ih]

theorem listBeginsWith_append (n t : List Char) :
    listBeginsWith n (n ++ t) = true := by
  induction n with
  | nil => rfl
  | cons c cs ih => simp [listBeginsWith, ih]

theorem listContains_append (pre n suf : List Char) :
    listContains n (pre ++ n ++ suf) = true := by
  induction pre with
  | nil =>
    cases hn : n ++ suf with
    | nil =>
      have hn' : n = [] := by
        cases n with
        | nil => rfl
        | cons c cs => simp at hn
      have hs' : suf = [] := by
        cases suf with
        | nil => rfl
        | cons c cs => rw [hn'] at hn; simp at hn
      subst hn'; subst hs'
      rfl
    | cons b hs =>
      simp only [List.nil_append]
      rw [hn]
      have hb : listBeginsWith n (b :: hs) = true := by
        rw [← hn]; exact listBeginsWith_append n suf
      simp [listContains, hb]
  | cons c cs ih =>
    simp only [List.cons_append]
    show (listBeginsWith n (c :: (cs ++ n ++ suf)) || listContains n (cs ++ n ++ suf)) = true
    rw [ih]
    simp

theorem mem_insertDescZ (x a : String × Nat) (l : List (String × Nat)) :
    a ∈ insertDescZ x l ↔ a = x ∨ a ∈ l := by
  induction l with
  | nil => simp [insertDescZ]
  | cons y ys ih =>
    by_cases h : y.2 ≤ x.2
    · simp [insertDescZ, h]
    · simp [insertDescZ, h, ih]
      tauto

theorem mem_sortDescZ (a : String × Nat) (l : List (String × Nat)) :
    a ∈ sortDescZ l ↔ a ∈ l := by
  induction l with
  | nil => simp [sortDescZ]
  | cons x xs ih => simp [sortDescZ, mem_insertDescZ, ih]

/-! ## Supporting lemmas -/
theorem scontains_iff (l : List String) (a : String) :
    l.contains a = true ↔ a ∈ l := by
  simp [List.contains, List.elem_eq_mem]

theorem docIdsOf_getD (old : Option ChatMeta) :
    (old.getD emptyMeta).document_ids = docIdsOf old := by
  cases old <;> rfl

theorem add_doc_ids_write_spec (old : Option ChatMeta) (ids : List String) :
    (ids.filter (fun d => !(docIdsOf old).contains d) = []
        ∧ add_doc_ids_write old ids = none)
    ∨ (ids.filter (fun d => !(docIdsOf old).contains d) ≠ []
        ∧ add_doc_ids_write old ids
            = some { old.getD emptyMeta with
                     document_ids :=
                       docIdsOf old ++ ids.filter (fun d => !(docIdsOf old).contains d) }) := by
  rw [show add_doc_ids_write old ids
      = (if ids = [] then none
         else if ids.filter (fun d => !(old.getD emptyMeta).document_ids.contains d) = []
         then none
         else some { old.getD emptyMeta with
                     document_ids :=
                       (old.getD emptyMeta).document_ids
                         ++ ids.filter (fun d => !(old.getD emptyMeta).document_ids.contains d) })
      from rfl]
  rw [docIdsOf_getD]
  by_cases h0 : ids = []
  · subst h0
    exact Or.inl ⟨rfl, by rw [if_pos rfl]⟩
  · rw [if_neg h0]
    by_cases h1 : ids.filter (fun d => !(docIdsOf old).contains d) = []
    · exact Or.inl ⟨h1, by rw [if_pos h1]⟩
    · exact Or.inr ⟨h1, by rw [if_neg h1]⟩

theorem metaAfterAddDocIds_eq (old : Option ChatMeta) (ids : List String) :
    (ids.filter (fun d => !(docIdsOf old).contains d) = []
        ∧ metaAfterAddDocIds old ids = old)
    ∨ (ids.filter (fun d => !(docIdsOf old).contains d) ≠ []
        ∧ metaAfterAddDocIds old ids
            = some { old.getD emptyMeta with
                     document_ids :=
                       docIdsOf old ++ ids.filter (fun d => !(docIdsOf old).contains d) }) := by
  rcases add_doc_ids_write_spec old ids with ⟨hf, hw⟩ | ⟨hf, hw⟩
  · exact Or.inl ⟨hf, by unfold metaAfterAddDocIds; rw [hw]⟩
  · exact Or.inr ⟨hf, by unfold metaAfterAddDocIds; rw [hw]⟩

theorem docIdsOf_metaAfterAddDocIds (old : Option ChatMeta) (ids : List String) :
    docIdsOf (metaAfterAddDocIds old ids)
      = docIdsOf old ++ ids.filter (fun d => !(docIdsOf old).contains d) := by
  rcases metaAfterAddDocIds_eq old ids with ⟨hf, hw⟩ | ⟨_, hw⟩
  · rw [hw, hf]
    simp
  · rw [hw]
    rfl

theorem filter_not_contains_nil (L : List String) (ids : List String)
    (h : ∀ d ∈ ids, d ∈ L) : ids.filter (fun d => !L.contains d) = [] := by
  refine List.filter_eq_nil_iff.2 ?_
  intro d hd
  have : L.contains d = true := (scontains_iff L d).2 (h d hd)
  simp [this]
  exact h d hd

theorem metaAfterAddDocIds_idempotent (old : Option ChatMeta) (ids : List String) :
    metaAfterAddDocIds (metaAfterAddDocIds old ids) ids = metaAfterAddDocIds old ids := by
  have hsub : ∀ d ∈ ids, d ∈ docIdsOf (metaAfterAddDocIds old ids) := by
    intro d hd
    rw [docIdsOf_metaAfterAddDocIds]
    by_cases hmem : d ∈ docIdsOf old
    · exact List.mem_append_left _ hmem
    · refine List.mem_append_right _ ?_
      refine List.mem_filter.2 ⟨hd, ?_⟩
      have : (docIdsOf old).contains d = false := by
        rcases hc : (docIdsOf old).contains d with _ | _
        · rfl
        · exact absurd ((scontains_iff _ _).1 hc) hmem
      simp [this]
      exact hmem
  have hfil := filter_not_contains_nil (docIdsOf (metaAfterAddDocIds old ids)) ids hsub
  rcases metaAfterAddDocIds_eq (metaAfterAddDocIds old ids) ids with ⟨_, hw⟩ | ⟨hne, _⟩
  · exact hw
  · exact absurd hfil hne

theorem metaAfterAddDocIds_noop (old : Option ChatMeta) (ids : List String)
    (h : ∀ d ∈ ids, d ∈ docIdsOf old) : metaAfterAddDocIds old ids = old := by
  have hfil := filter_not_contains_nil (docIdsOf old) ids h
  rcases metaAfterAddDocIds_eq old ids with ⟨_, hw⟩ | ⟨hne, _⟩
  · exact hw
  · exact absurd hfil hne

theorem createdOf_applyMetaOp (m : Option ChatMeta) (op : MetaOp) (c : String)
    (h : createdOf m = some c) : createdOf (applyMetaOp m op) = some c := by
  cases op with
  | putMeta title now =>
    cases m with
    | none => simp [createdOf] at h
    | some mm =>
      simp [createdOf] at h
      simp [applyMetaOp, update_chat_meta_on_message, createdOf, h]
  | addDocs ids =>
    cases m with
    | none => simp [createdOf] at h
    | some mm =>
      simp only [applyMetaOp]
      rcases metaAfterAddDocIds_eq (some mm) ids with ⟨_, hw⟩ | ⟨_, hw⟩
      · rw [hw]; exact h
      · rw [hw]
        simpa [createdOf] using h

theorem createdOf_applyMetaOps (m : Option ChatMeta) (ops : List MetaOp) (c : String)
    (h : createdOf m = some c) : createdOf (applyMetaOps m ops) = some c := by
  induction ops generalizing m with
  | nil => exact h
  | cons op rest ih => exact ih _ (createdOf_applyMetaOp m op c h)

/-- C5: a conversation's `created` timestamp is set by the first meta write
(the first `update_chat_meta_on_message` stamps the current time) and is
never changed by any later meta update — any sequence of
`update_chat_meta_on_message` / `add_doc_ids_to_chat_meta` calls, whatever
titles, times or ids they carry, preserves it. -/
theorem C5_created_set_once_never_changed :
    (∀ (title : Option String) (now : String),
        createdOf (applyMetaOp none (.putMeta title now)) = some now)
    ∧ (∀ (m : Option ChatMeta) (c : String) (ops : List MetaOp),
        createdOf m = some c → createdOf (applyMetaOps m ops) = some c) := by
  constructor
  · intro title now
    simp [applyMetaOp, update_chat_meta_on_message, createdOf, emptyMeta]
  · intro m c ops h
    exact createdOf_applyMetaOps m ops c h

/-- C5 witness: a concrete first write at time `t0` followed by further
updates (new title, new timestamp, a doc-id merge) keeps `created = t0`. -/
theorem C5_witness :
    createdOf (applyMetaOps (applyMetaOp none (.putMeta none "t0"))
      [.putMeta (some "New title") "t1", .addDocs ["d1"], .putMeta none "t2"])
      = some "t0" := by
  have h1 := C5_created_set_once_never_changed.1 none "t0"
  exact C5_created_set_once_never_changed.2 _ "t0"
    [.putMeta (some "New title") "t1", .addDocs ["d1"], .putMeta none "t2"] h1

/-! ## Claim C6 -/
/-- C6: `add_doc_ids_to_chat_meta` is idempotent and order-preserving — the
resulting `document_ids` list is the old list with exactly the not-yet-present
ids appended in input order, re-adding already-present ids is a no-op, and a
second call with the same id list changes nothing. -/
theorem C6_add_doc_ids_idempotent_order_preserving :
    ∀ (old : Option ChatMeta) (ids : List String),
      docIdsOf (metaAfterAddDocIds old ids)
        = docIdsOf old ++ ids.filter (fun d => !(docIdsOf old).contains d)
      ∧ metaAfterAddDocIds (metaAfterAddDocIds old ids) ids
          = metaAfterAddDocIds old ids
      ∧ ((∀ d ∈ ids, d ∈ docIdsOf old) → metaAfterAddDocIds old ids = old) :=
  fun old ids =>
    ⟨docIdsOf_metaAfterAddDocIds old ids,
     metaAfterAddDocIds_idempotent old ids,
     metaAfterAddDocIds_noop old ids⟩

/-- C6 witness: on a blob holding `["a", "b"]`, adding `["b", "c"]` appends
only `"c"` (order preserved) and re-adding `["b"]` is a no-op. -/
theorem C6_witness :
    docIdsOf (metaAfterAddDocIds (some ⟨none, none, none, none, ["a", "b"]⟩)
        ["b", "c"]) = ["a", "b", "c"]
    ∧ metaAfterAddDocIds (some ⟨none, none, none, none, ["a", "b"]⟩) ["b"]
        = some ⟨none, none, none, none, ["a", "b"]⟩ := by
  constructor
  · rw [(C6_add_doc_ids_idempotent_order_preserving
      (some ⟨none, none, none, none, ["a", "b"]⟩) ["b", "c"]).1]
    decide
  · exact (C6_add_doc_ids_idempotent_order_preserving
      (some ⟨none, none, none, none, ["a", "b"]⟩) ["b"]).2.2 (by decide)

/-! ## Claim C9 -/
theorem lowerStr_append (a b : String) :
    lowerStr (a ++ b) = lowerStr a ++ lowerStr b := by
  simp [lowerStr, String.data_append]

theorem IsFallback_of_phrase (p : String) (hp : p ∈ canonical_no_evidence_phrases)
    (s : String) (h : listContains (lowerStr p) (lowerStr s) = true) :
    IsFallback s = true := by
  simp only [IsFallback, Bool.or_eq_true, List.any_eq_true]
  exact Or.inr ⟨p, hp, h⟩

/-- C9: `IsFallback` is true for the empty answer and for every text
containing a canonical "no evidence" phrase as a substring in any case, and
false for an evidence-bearing sentence containing none of the phrases. -/
theorem C9_fallback_classifier_substring_case_insensitive :
    IsFallback "" = true
    ∧ (∀ (pre mid suf p : String), p ∈ canonical_no_evidence_phrases →
        lowerStr mid = lowerStr p →
        IsFallback (pre ++ mid ++ suf) = true)
    ∧ IsFallback
        "The return window is 30 days, as stated in the policy document." = false := by
  refine ⟨rfl, ?_, by decide⟩
  intro pre mid suf p hp hmid
  apply IsFallback_of_phrase p hp
  rw [lowerStr_append, lowerStr_append, hmid]
  exact listContains_append _ _ _

/-- C9 witness: a mixed-case occurrence of a canonical phrase inside a longer
sentence is classified as a fallback. -/
theorem C9_witness :
    IsFallback ("Unfortunately, " ++ "NO relevant INDEXED documents WERE found"
      ++ " for this query.") = true :=
  C9_fallback_classifier_substring_case_insensitive.2.1
    "Unfortunately, " "NO relevant INDEXED documents WERE found" " for this query."
    "no relevant indexed documents were found" (by decide) (by decide)

/-! ## Claim C1 -/
theorem push_history_item_up (s : Store) (cid ct q a : String) (tags : List Tag)
    (dids : List String) (ts : String) :
    push_history_item s true cid ct q a tags dids ts
      = ({ s with history := aset s.history (redis_key cid ct) (historyAt s (redis_key cid ct) ++ [(⟨q, a, ts, tags, dids⟩ : HistoryEntry)]) },
         (historyAt s (redis_key cid ct) ++ [(⟨q, a, ts, tags, dids⟩ : HistoryEntry)]).length) := rfl

/-- C1: when the turn's answer is classified as a fallback, the appended turn
record carries empty `tags` and empty `document_ids`, and the conversation's
meta (in particular its `document_ids`) is untouched. -/
theorem C1_fallback_turn_empty_associations :
    ∀ (s : Store) (chat_id chat_type question answer : String)
      (tags : List Tag) (doc_ids : List String) (ts : String),
      IsFallback answer = true →
      historyAt (runTurnBookkeeping s chat_id chat_type question answer tags doc_ids ts)
          (redis_key chat_id chat_type)
        = historyAt s (redis_key chat_id chat_type)
          ++ [{ question := question, answer := answer, ts := ts,
                tags := [], document_ids := [] }]
      ∧ (runTurnBookkeeping s chat_id chat_type question answer tags doc_ids ts).meta
          = s.meta := by
  intro s cid ct q a tags dids ts h
  unfold runTurnBookkeeping
  rw [if_pos h, push_history_item_up]
  constructor
  · simp only [historyAt, afind_aset, eq_self_iff_true, if_true, Option.getD_some]
  · rfl

/-- C1 witness: a concrete fallback turn on the empty store records the turn
with no tags, no document ids, and leaves meta empty. -/
theorem C1_witness :
    historyAt (runTurnBookkeeping Store.empty "c1" "question" "why?"
        "I do not have that specific information." [Tag.mk "t" ""] ["d1"] "ts0")
        (redis_key "c1" "question")
      = [⟨"why?", "I do not have that specific information.", "ts0", [], []⟩]
    ∧ (runTurnBookkeeping Store.empty "c1" "question" "why?"
        "I do not have that specific information." [Tag.mk "t" ""] ["d1"] "ts0").meta
      = [] := by
  have h := C1_fallback_turn_empty_associations Store.empty "c1" "question" "why?"
    "I do not have that specific information." [Tag.mk "t" ""] ["d1"] "ts0" (by decide)
  exact ⟨by rw [h.1]; rfl, by rw [h.2]; rfl⟩

/-! ## Claim C4 (corrected) -/
/-- C4 counterexample: the claim says a session-store failure during the
bookkeeping writes never aborts returning an already-computed answer, but the
endpoint's bookkeeping block (`search_api.py` lines 207-213: unguarded
`LLEN`/`RPUSH`) propagates the failure — with the backend down the turn
submission raises instead of returning the computed answer `"42"`. -/
theorem C4_counterexample :
    (finalizeTurn Store.empty false "c1" CType.question "q" "42" [] [] none "t0" 0).1
      = Except.error ApiErr.store := rfl

/-- C4 amended: the redis-service helpers do swallow store failures —
`push_history_item` returns the unchanged store with `0` and the recency
touch `update_chat_order` is a silent no-op — but the mounted endpoint's own
inline history/meta writes are unguarded, so a store failure there aborts the
request even though the answer was already computed. -/
theorem C4_service_helpers_swallow_store_failure :
    ∀ (s : Store) (chat_id chat_type question answer : String) (tags : List Tag)
      (doc_ids : List String) (ts : String) (now : Nat) (ct : CType)
      (fus tgs : List String) (tl : Option String),
      push_history_item s false chat_id chat_type question answer tags doc_ids ts
          = (s, 0)
      ∧ update_chat_order s false chat_type chat_id now = s
      ∧ (finalizeTurn s false chat_id ct question answer fus tgs tl ts now).1
          = Except.error ApiErr.store := by
  intro s cid ct q a tags dids ts now ct' fus tgs tl
  exact ⟨rfl, rfl, rfl⟩

/-! ## Claim C3 -/
theorem vsPipeline_nil (cands : List (KbRecord × ℚ))
    (h : ∀ r q, (r, q) ∈ cands.take 1 → q ≤ SIMILARITY_THRESHOLD) :
    vsPipeline cands = [] := by
  unfold vsPipeline
  refine List.filter_eq_nil_iff.2 ?_
  intro rs hrs
  have hle := h rs.1 rs.2 (by simpa using hrs)
  simp only [decide_eq_true_eq]
  exact not_lt.2 hle

/-- C3: when the similarity lookup yields no candidate above the minimum
similarity, `vector_search` returns exactly the canonical "no relevant
indexed documents were found" fallback with empty tags and makes no
completion call; the fallback text is classified as a fallback, so the
turn-finalization step merges no document ids into meta. -/
theorem C3_vector_no_match_canonical_fallback :
    ∀ (cands : List (KbRecord × ℚ)) (llm : String)
      (config : List (String × String)),
      (∀ r q, (r, q) ∈ cands.take 1 → q ≤ SIMILARITY_THRESHOLD) →
      (vector_search cands llm config).1
          = Except.ok (VECTOR_NO_MATCH_FALLBACK, [], [], "")
      ∧ (vector_search cands llm config).2.completionCalls = 0
      ∧ IsFallback VECTOR_NO_MATCH_FALLBACK = true
      ∧ (∀ (s : Store) (cid ct q ts : String),
          (runTurnBookkeeping s cid ct q VECTOR_NO_MATCH_FALLBACK [] [] ts).meta
            = s.meta) := by
  intro cands llm config h
  have hp : vsPipeline cands = [] := vsPipeline_nil cands h
  have hfb : IsFallback VECTOR_NO_MATCH_FALLBACK = true := by decide
  refine ⟨?_, ?_, hfb, ?_⟩
  · simp only [vector_search, hp]
  · simp only [vector_search, hp]
  · intro s cid ct q ts
    unfold runTurnBookkeeping
    rw [if_pos hfb, push_history_item_up]

/-- C3 witness: an empty candidate list (trivially nothing above threshold)
yields the canonical fallback with no completion call. -/
theorem C3_witness :
    (vector_search [] "anything" []).1
        = Except.ok (VECTOR_NO_MATCH_FALLBACK, [], [], "")
    ∧ (vector_search [] "anything" []).2.completionCalls = 0 := by
  have h := C3_vector_no_match_canonical_fallback [] "anything" []
    (fun r q hq => absurd hq (by simp))
  exact ⟨h.1, h.2.1⟩

/-! ## Claim C10 -/
/-- C10: the history read is not read-only — when no meta blob exists for the
(kind, id) pair, `get_history` writes a fresh one (`created` = now, the
placeholder owner, a resolved title) as a side effect, after which the pair no
longer satisfies `is_orphan`. -/
theorem C10_get_history_creates_meta :
    ∀ (s : Store) (chat_id : String) (ct : CType) (now : String),
      afind s.meta (chat_meta_key chat_id ct.str) = none →
      metaExists ((getHistory s chat_id ct now).2) (chat_meta_key chat_id ct.str) = true
      ∧ (afind ((getHistory s chat_id ct now).2).meta (chat_meta_key chat_id ct.str)).bind
          ChatMeta.created = some now
      ∧ (afind ((getHistory s chat_id ct now).2).meta (chat_meta_key chat_id ct.str)).bind
          ChatMeta.user_id = some "admin"
      ∧ ((afind ((getHistory s chat_id ct now).2).meta (chat_meta_key chat_id ct.str)).bind
          ChatMeta.title).isSome = true
      ∧ is_orphan ((getHistory s chat_id ct now).2) ct.str chat_id = false := by
  intro s cid ct now h
  refine ⟨?_, ?_, ?_, ?_, ?_⟩ <;>
    simp [getHistory, h, is_orphan, metaExists, afind_aset]

/-- C10 witness: on the empty store (an orphan pair), reading the history
endpoint makes `is_orphan` false. -/
theorem C10_witness :
    is_orphan ((getHistory Store.empty "c1" CType.question "T0").2) "question" "c1"
      = false :=
  (C10_get_history_creates_meta Store.empty "c1" CType.question "T0" rfl).2.2.2.2

/-! ## Claim C2 -/
theorem searchQuestion_embed_vector_calls (s : Store) (req : QuestionRequest)
    (orc : SearchOracles) (ni : String) (ns : Nat) :
    (searchQuestion s true true req orc ni ns).2.embedCalls
        = (routeTurn req orc).2.embedCalls
    ∧ (searchQuestion s true true req orc ni ns).2.vectorAggCalls
        = (routeTurn req orc).2.vectorAggCalls := by
  rcases hr : routeTurn req orc with ⟨res, eff⟩
  cases res with
  | error e => simp [searchQuestion, rOp, hr]
  | ok out =>
    rcases hf : finalizeTurn s true
        (if pyTruthy req.chat_id then req.chat_id.getD "" else orc.uuid)
        req.chat_type req.question out.final_answer out.follow_up_questions
        out.tags orc.titleLlm ni ns with ⟨fres, gen⟩
    cases fres <;> simp [searchQuestion, rOp, hr, hf]

/-- C2: when the turn's resolved document ids are non-empty at turn start,
the document branch alone produces the answer — the vector-search
collaborator (embedding call and knowledge-base aggregate) receives zero
calls; and the vector branch runs only when no document ids are bound. -/
theorem C2_document_bound_turn_skips_vector_path :
    ∀ (s : Store) (req : QuestionRequest) (orc : SearchOracles)
      (nowIso : String) (nowScore : Nat),
      (req.document_ids.getD [] ≠ [] →
        (searchQuestion s true true req orc nowIso nowScore).2.embedCalls = 0
        ∧ (searchQuestion s true true req orc nowIso nowScore).2.vectorAggCalls = 0
        ∧ ∃ out, (routeTurn req orc).1 = Except.ok out
            ∧ out.path = RoutePath.document)
      ∧ (req.document_ids.getD [] = [] →
        ∀ out, (routeTurn req orc).1 = Except.ok out →
          out.path = RoutePath.vector
          ∧ (searchQuestion s true true req orc nowIso nowScore).2.vectorAggCalls = 1) := by
  intro s req orc ni ns
  constructor
  · intro hne
    have hb : (!(req.document_ids.getD [] = [])) = true := by simp [hne]
    have hroute : routeTurn req orc
        = (Except.ok ⟨RoutePath.document,
              (parseDocAnswer (pyStrip orc.docLlmRaw)).1,
              (parseDocAnswer (pyStrip orc.docLlmRaw)).2,
              if orc.uploadOk then docTagsOf orc.uploadDocs else []⟩,
           ⟨0, 0, 1, 0⟩) := by
      simp only [routeTurn, hb, if_true]
    have heff := searchQuestion_embed_vector_calls s req orc ni ns
    rw [hroute] at heff
    exact ⟨heff.1, heff.2, ⟨_, by rw [hroute], rfl⟩⟩
  · intro hz out hout
    have hb : (!(req.document_ids.getD [] = [])) = false := by simp [hz]
    have heff := searchQuestion_embed_vector_calls s req orc ni ns
    cases hk : orc.kbResults with
    | nil =>
      have : routeTurn req orc = (Except.error (ApiErr.http 404), ⟨1, 1, 0, 0⟩) := by
        simp only [routeTurn, hb, Bool.false_eq_true, if_false, hk]
      rw [this] at hout
      exact absurd hout (by simp)
    | cons best rest =>
      have hroute : routeTurn req orc
          = (Except.ok ⟨RoutePath.vector, pyStrip orc.vecLlmRaw,
                truthyStrings [best.follow_up_question_1, best.follow_up_question_2,
                  best.follow_up_question_3],
                parseEndpointTags best.tags⟩,
             ⟨1, 1, 1, 0⟩) := by
        simp only [routeTurn, hb, Bool.false_eq_true, if_false, hk]
      rw [hroute] at hout heff
      have hout' : out = ⟨RoutePath.vector, pyStrip orc.vecLlmRaw,
          truthyStrings [best.follow_up_question_1, best.follow_up_question_2,
            best.follow_up_question_3],
          parseEndpointTags best.tags⟩ := by
        simpa using hout.symm
      exact ⟨by rw [hout'], heff.2⟩

/-- C2 witness: a turn with a bound document id makes zero vector-collaborator
calls and routes to the document branch; the same turn without document ids
routes to the vector branch with one aggregate call. -/
theorem C2_witness :
    ((searchQuestion Store.empty true true
        ⟨"q1", some "c1", CType.question, some ["d1"]⟩
        ⟨"u", "raw", "vraw", none, [], true, [⟨"da", none, none, none, "t1, t2"⟩]⟩
        "T0" 0).2.embedCalls = 0
      ∧ (searchQuestion Store.empty true true
          ⟨"q1", some "c1", CType.question, some ["d1"]⟩
          ⟨"u", "raw", "vraw", none, [], true, [⟨"da", none, none, none, "t1, t2"⟩]⟩
          "T0" 0).2.vectorAggCalls = 0)
    ∧ (searchQuestion Store.empty true true
        ⟨"q1", some "c1", CType.question, none⟩
        ⟨"u", "raw", "vraw", none, [], true, [⟨"da", none, none, none, "t1, t2"⟩]⟩
        "T0" 0).2.vectorAggCalls = 1 := by
  constructor
  · have h := (C2_document_bound_turn_skips_vector_path Store.empty
      ⟨"q1", some "c1", CType.question, some ["d1"]⟩
      ⟨"u", "raw", "vraw", none, [], true, [⟨"da", none, none, none, "t1, t2"⟩]⟩
      "T0" 0).1 (by decide)
    exact ⟨h.1, h.2.1⟩
  · exact ((C2_document_bound_turn_skips_vector_path Store.empty
      ⟨"q1", some "c1", CType.question, none⟩
      ⟨"u", "raw", "vraw", none, [], true, [⟨"da", none, none, none, "t1, t2"⟩]⟩
      "T0" 0).2 rfl _ rfl).2

/-! ## Claim C8 -/
theorem routeTurn_titleGenCalls (req : QuestionRequest) (orc : SearchOracles) :
    (routeTurn req orc).2.titleGenCalls = 0 := by
  by_cases hb : (!(req.document_ids.getD [] = [])) = true
  · simp [routeTurn, hb]
  · have hb' : (!(req.document_ids.getD [] = [])) = false := by
      revert hb
      cases !(req.document_ids.getD [] = []) <;> simp
    cases hk : orc.kbResults with
    | nil => simp [routeTurn, hb', hk]
    | cons b r => simp [routeTurn, hb', hk]

theorem finalizeTurn_up_eq (s : Store) (cid : String) (ct : CType) (q a : String)
    (fus tgs : List String) (tl : Option String) (ni : String) (ns : Nat) :
    finalizeTurn s true cid ct q a fus tgs tl ni ns
      = (Except.ok
          ({ question := q, answer := a, follow_up_questions := fus, chat_id := cid,
             chat_type := ct, title := finalizeTitle s cid ct tl q a ni, tags := tgs },
           finalizeStore s cid ct q a tl ni ns),
         if (historyAt s (redis_key cid ct.str)).length = 0 then 1 else 0) := rfl

theorem historyAt_finalizeStore (s : Store) (cid : String) (ct : CType)
    (q a : String) (tl : Option String) (ni : String) (ns : Nat) :
    historyAt (finalizeStore s cid ct q a tl ni ns) (redis_key cid ct.str)
      = historyAt s (redis_key cid ct.str) ++ [(⟨q, a, ni, [], []⟩ : HistoryEntry)] := by
  simp only [finalizeStore, update_chat_order, if_true, historyAt, finalizeAppend,
    afind_aset]
  simp

theorem finalizeTitle_reuse (s : Store) (cid : String) (ct : CType)
    (tl : Option String) (q a ni : String) (t : String)
    (hlen : ¬(historyAt s (redis_key cid ct.str)).length = 0)
    (ht : (afind s.meta (chat_meta_key cid ct.str)).bind ChatMeta.title = some t)
    (htne : t ≠ "") :
    finalizeTitle s cid ct tl q a ni = some t := by
  have hmeta : (finalizeAppend s (redis_key cid ct.str)
      (⟨q, a, ni, [], []⟩ : HistoryEntry)).meta = s.meta := rfl
  simp [finalizeTitle, resolveStoredTitle, hlen, hmeta, ht, pyTruthy, htne]

theorem searchQuestion_eq_of_route_error (s : Store) (cid : String) (hcid : cid ≠ "")
    (ct : CType) (qq : String) (dids : Option (List String)) (orc : SearchOracles)
    (ni : String) (ns : Nat) (e : ApiErr) (eff : ApiEffects)
    (hr : routeTurn ⟨qq, some cid, ct, dids⟩ orc = (Except.error e, eff)) :
    searchQuestion s true true ⟨qq, some cid, ct, dids⟩ orc ni ns
      = (Except.error e, eff) := by
  have hct : pyTruthy (some cid) = true := by simp [pyTruthy, hcid]
  simp [searchQuestion, hct, rOp, hr]

theorem searchQuestion_eq_of_route_ok (s : Store) (cid : String) (hcid : cid ≠ "")
    (ct : CType) (qq : String) (dids : Option (List String)) (orc : SearchOracles)
    (ni : String) (ns : Nat) (out : RouteOut) (eff : ApiEffects)
    (hr : routeTurn ⟨qq, some cid, ct, dids⟩ orc = (Except.ok out, eff)) :
    searchQuestion s true true ⟨qq, some cid, ct, dids⟩ orc ni ns
      = (Except.ok
          ({ question := qq, answer := out.final_answer,
             follow_up_questions := out.follow_up_questions, chat_id := cid,
             chat_type := ct,
             title := finalizeTitle s cid ct orc.titleLlm qq out.final_answer ni,
             tags := out.tags },
           finalizeStore s cid ct qq out.final_answer orc.titleLlm ni ns),
         { eff with titleGenCalls := eff.titleGenCalls
             + (if (historyAt s (redis_key cid ct.str)).length = 0 then 1 else 0) }) := by
  have hct : pyTruthy (some cid) = true := by simp [pyTruthy, hcid]
  simp [searchQuestion, hct, rOp, hr, finalizeTurn_up_eq]

theorem runSearchTurns_gen_zero (cid : String) (hcid : cid ≠ "") (ct : CType)
    (inputs : List TurnInput) :
    ∀ s : Store, historyAt s (redis_key cid ct.str) ≠ [] →
      (runSearchTurns s cid ct inputs).2 = 0 := by
  induction inputs with
  | nil => intro s _; rfl
  | cons i rest ih =>
    intro s h
    have hlen : ¬(historyAt s (redis_key cid ct.str)).length = 0 :=
      fun hc => h (List.length_eq_zero.1 hc)
    have hg := routeTurn_titleGenCalls ⟨i.question, some cid, ct, i.docIds⟩ i.orc
    rcases hr : routeTurn ⟨i.question, some cid, ct, i.docIds⟩ i.orc with ⟨res, eff⟩
    rw [hr] at hg
    cases res with
    | error e =>
      have hsq := searchQuestion_eq_of_route_error s cid hcid ct i.question i.docIds
        i.orc i.nowIso i.nowScore e eff hr
      simp only [runSearchTurns, hsq]
      rw [ih s h]
      simpa using hg
    | ok out =>
      have hsq := searchQuestion_eq_of_route_ok s cid hcid ct i.question i.docIds
        i.orc i.nowIso i.nowScore out eff hr
      have hs' : historyAt (finalizeStore s cid ct i.question out.final_answer
          i.orc.titleLlm i.nowIso i.nowScore) (redis_key cid ct.str) ≠ [] := by
        rw [historyAt_finalizeStore]
        simp
      simp only [runSearchTurns, hsq]
      rw [ih _ hs']
      simp only [if_neg hlen] at hsq ⊢
      simp at hg
      simp [hg]

theorem runSearchTurns_gen_le_one (cid : String) (hcid : cid ≠ "") (ct : CType)
    (inputs : List TurnInput) :
    ∀ s : Store, historyAt s (redis_key cid ct.str) = [] →
      (runSearchTurns s cid ct inputs).2 ≤ 1 := by
  induction inputs with
  | nil => intro s _; simp [runSearchTurns]
  | cons i rest ih =>
    intro s h
    have hlen : (historyAt s (redis_key cid ct.str)).length = 0 := by
      rw [h]; rfl
    have hg := routeTurn_titleGenCalls ⟨i.question, some cid, ct, i.docIds⟩ i.orc
    rcases hr : routeTurn ⟨i.question, some cid, ct, i.docIds⟩ i.orc with ⟨res, eff⟩
    rw [hr] at hg
    cases res with
    | error e =>
      have hsq := searchQuestion_eq_of_route_error s cid hcid ct i.question i.docIds
        i.orc i.nowIso i.nowScore e eff hr
      simp only [runSearchTurns, hsq]
      simp at hg
      rw [hg]
      simpa using ih s h
    | ok out =>
      have hsq := searchQuestion_eq_of_route_ok s cid hcid ct i.question i.docIds
        i.orc i.nowIso i.nowScore out eff hr
      have hs' : historyAt (finalizeStore s cid ct i.question out.final_answer
          i.orc.titleLlm i.nowIso i.nowScore) (redis_key cid ct.str) ≠ [] := by
        rw [historyAt_finalizeStore]
        simp
      simp only [runSearchTurns, hsq]
      rw [runSearchTurns_gen_zero cid hcid ct rest _ hs']
      simp only [if_pos hlen]
      simp at hg
      simp [hg]

/-- C8: the title generator runs at most once per conversation — exactly on
the turn whose history was empty before the append (a sequence of turns on a
fresh conversation makes at most one generator call, and a turn on a
non-empty conversation makes none); later turns reuse the stored title
verbatim; a title-generator failure yields the fixed placeholder
"Conversation". -/
theorem C8_title_generated_once_then_reused :
    (∀ (s : Store) (chat_id : String) (ct : CType) (inputs : List TurnInput),
      chat_id ≠ "" → historyAt s (redis_key chat_id ct.str) = [] →
      (runSearchTurns s chat_id ct inputs).2 ≤ 1)
    ∧ (∀ (s : Store) (chat_id : String) (ct : CType) (qq : String)
        (dids : Option (List String)) (orc : SearchOracles) (ni : String) (ns : Nat)
        (t : String),
      chat_id ≠ "" → historyAt s (redis_key chat_id ct.str) ≠ [] →
      (afind s.meta (chat_meta_key chat_id ct.str)).bind ChatMeta.title = some t →
      t ≠ "" →
      (searchQuestion s true true ⟨qq, some chat_id, ct, dids⟩ orc ni ns).2.titleGenCalls = 0
      ∧ (∀ resp s',
          (searchQuestion s true true ⟨qq, some chat_id, ct, dids⟩ orc ni ns).1
              = Except.ok (resp, s') →
          resp.title = some t))
    ∧ generate_chat_title none = "Conversation"
    ∧ (∀ (s : Store) (chat_id : String) (ct : CType) (qq : String)
        (dids : Option (List String)) (orc : SearchOracles) (ni : String) (ns : Nat)
        (resp : SearchResponse) (s' : Store),
      chat_id ≠ "" → historyAt s (redis_key chat_id ct.str) = [] →
      (searchQuestion s true true ⟨qq, some chat_id, ct, dids⟩ orc ni ns).1
          = Except.ok (resp, s') →
      (searchQuestion s true true ⟨qq, some chat_id, ct, dids⟩ orc ni ns).2.titleGenCalls = 1) := by
  refine ⟨?_, ?_, rfl, ?_⟩
  · intro s cid ct inputs hcid h
    exact runSearchTurns_gen_le_one cid hcid ct inputs s h
  · intro s cid ct qq dids orc ni ns t hcid hne ht htne
    have hlen : ¬(historyAt s (redis_key cid ct.str)).length = 0 :=
      fun hc => hne (List.length_eq_zero.1 hc)
    have hg := routeTurn_titleGenCalls ⟨qq, some cid, ct, dids⟩ orc
    rcases hr : routeTurn ⟨qq, some cid, ct, dids⟩ orc with ⟨res, eff⟩
    rw [hr] at hg
    simp at hg
    cases res with
    | error e =>
      have hsq := searchQuestion_eq_of_route_error s cid hcid ct qq dids orc
        ni ns e eff hr
      constructor
      · rw [hsq]
        exact hg
      · intro resp s' hok
        rw [hsq] at hok
        exact absurd hok (by simp)
    | ok out =>
      have hsq := searchQuestion_eq_of_route_ok s cid hcid ct qq dids orc
        ni ns out eff hr
      constructor
      · rw [hsq]
        simp [hg, hlen]
      · intro resp s' hok
        rw [hsq] at hok
        simp at hok
        rw [← hok.1]
        exact finalizeTitle_reuse s cid ct orc.titleLlm qq out.final_answer ni t
          hlen ht htne
  · intro s cid ct qq dids orc ni ns resp s' hcid h hok1
    have hlen : (historyAt s (redis_key cid ct.str)).length = 0 := by
      rw [h]; rfl
    have hg := routeTurn_titleGenCalls ⟨qq, some cid, ct, dids⟩ orc
    rcases hr : routeTurn ⟨qq, some cid, ct, dids⟩ orc with ⟨res, eff⟩
    rw [hr] at hg
    simp at hg
    cases res with
    | error e =>
      have hsq := searchQuestion_eq_of_route_error s cid hcid ct qq dids orc
        ni ns e eff hr
      rw [hsq] at hok1
      exact absurd hok1 (by simp)
    | ok out =>
      have hsq := searchQuestion_eq_of_route_ok s cid hcid ct qq dids orc
        ni ns out eff hr
      rw [hsq]
      simp [hg, hlen]

/-- C8 witness: two concrete turns on a fresh conversation make at most one
title-generation call, and a turn on a conversation whose meta already stores
the title "My title" makes none. -/
theorem C8_witness :
    (runSearchTurns Store.empty "c1" CType.question
        [⟨"q1", ⟨"u", "raw", "vraw", some "Nice title", [], true, []⟩, "T1", 1, some ["d1"]⟩,
         ⟨"q2", ⟨"u", "raw", "vraw", some "Nice title", [], true, []⟩, "T2", 2, some ["d1"]⟩]).2 ≤ 1
    ∧ (searchQuestion
        ⟨[(redis_key "c1" "question", [⟨"q0", "a0", "T0", [], []⟩])],
         [(chat_meta_key "c1" "question",
           ⟨some "T0", some "T0", some "My title", some "admin", []⟩)], []⟩
        true true ⟨"q1", some "c1", CType.question, some ["d1"]⟩
        ⟨"u", "raw", "vraw", none, [], true, []⟩ "T1" 1).2.titleGenCalls = 0 := by
  constructor
  · exact C8_title_generated_once_then_reused.1 Store.empty "c1" CType.question
      _ (by decide) rfl
  · exact (C8_title_generated_once_then_reused.2.1
      ⟨[(redis_key "c1" "question", [⟨"q0", "a0", "T0", [], []⟩])],
       [(chat_meta_key "c1" "question",
         ⟨some "T0", some "T0", some "My title", some "admin", []⟩)], []⟩
      "c1" CType.question "q1" (some ["d1"])
      ⟨"u", "raw", "vraw", none, [], true, []⟩ "T1" 1 "My title"
      (by decide) (by decide) (by decide) (by decide)).1

theorem delKey_spec {α : Type} (l : List (String × α)) (key : String) :
    (delKey l key).2 = (if (afind l key).isSome then 1 else 0)
    ∧ ∀ k, afind (delKey l key).1 k = if key = k then none else afind l k := by
  cases hl : afind l key with
  | none =>
    refine ⟨by simp [delKey, hl], ?_⟩
    intro k
    by_cases hk : key = k
    · subst hk; simp [delKey, hl]
    · simp [delKey, hl, hk]
  | some v =>
    refine ⟨by simp [delKey, hl], ?_⟩
    intro k
    rw [show (delKey l key).1 = aremove l key from by simp [delKey, hl]]
    exact afind_aremove l key k

theorem deleteSessionKind_spec (s : Store) (cid t : String) :
    (deleteSessionKind s cid t).2.1
        = (if (afind s.history (redis_key cid t)).isSome then 1 else 0)
    ∧ (deleteSessionKind s cid t).2.2
        = (if (afind s.meta (chat_meta_key cid t)).isSome then 1 else 0)
    ∧ (∀ k, afind (deleteSessionKind s cid t).1.history k
        = if redis_key cid t = k then none else afind s.history k)
    ∧ (∀ k, afind (deleteSessionKind s cid t).1.meta k
        = if chat_meta_key cid t = k then none else afind s.meta k) := by
  refine ⟨(delKey_spec s.history (redis_key cid t)).1,
          (delKey_spec s.meta (chat_meta_key cid t)).1, ?_, ?_⟩
  · intro k
    have h := (delKey_spec s.history (redis_key cid t)).2 k
    exact h
  · intro k
    have h := (delKey_spec s.meta (chat_meta_key cid t)).2 k
    exact h

theorem redis_key_qi_ne (cid : String) :
    redis_key cid "question" ≠ redis_key cid "insight" := by
  intro h
  have hd := congrArg String.data h
  simp only [redis_key, String.data_append] at hd
  have hpre := List.append_cancel_right hd
  exact absurd hpre (by decide)

theorem chat_meta_key_qi_ne (cid : String) :
    chat_meta_key cid "question" ≠ chat_meta_key cid "insight" := by
  intro h
  have hd := congrArg String.data h
  simp only [chat_meta_key, String.data_append] at hd
  have hpre := List.append_cancel_right hd
  exact absurd hpre (by decide)

theorem deleteSession_none_eq (s : Store) (cid : String) :
    deleteSession s cid none
      = (if (deleteSessionKind s cid "question").2.1
            + (deleteSessionKind (deleteSessionKind s cid "question").1 cid "insight").2.1
            + ((deleteSessionKind s cid "question").2.2
            + (deleteSessionKind (deleteSessionKind s cid "question").1 cid "insight").2.2) = 0
         then (Except.error (ApiErr.http 404),
               remove_chat_order_member
                 (deleteSessionKind (deleteSessionKind s cid "question").1 cid "insight").1
                 true cid none)
         else (Except.ok
                ⟨(deleteSessionKind s cid "question").2.1
                  + (deleteSessionKind (deleteSessionKind s cid "question").1 cid "insight").2.1,
                 (deleteSessionKind s cid "question").2.2
                  + (deleteSessionKind (deleteSessionKind s cid "question").1 cid "insight").2.2⟩,
               (deleteSessionKind (deleteSessionKind s cid "question").1 cid "insight").1)) := rfl

theorem deleteSession_q_eq (s : Store) (cid : String) :
    deleteSession s cid (some CType.question)
      = (if (deleteSessionKind s cid "question").2.1 + 0
            + ((deleteSessionKind s cid "question").2.2 + 0) = 0
         then (Except.error (ApiErr.http 404),
               remove_chat_order_member (deleteSessionKind s cid "question").1
                 true cid (some "question"))
         else (Except.ok
                ⟨(deleteSessionKind s cid "question").2.1 + 0,
                 (deleteSessionKind s cid "question").2.2 + 0⟩,
               (deleteSessionKind s cid "question").1)) := rfl

theorem deleteSession_i_eq (s : Store) (cid : String) :
    deleteSession s cid (some CType.insight)
      = (if 0 + (deleteSessionKind s cid "insight").2.1
            + (0 + (deleteSessionKind s cid "insight").2.2) = 0
         then (Except.error (ApiErr.http 404),
               remove_chat_order_member (deleteSessionKind s cid "insight").1
                 true cid (some "insight"))
         else (Except.ok
                ⟨0 + (deleteSessionKind s cid "insight").2.1,
                 0 + (deleteSessionKind s cid "insight").2.2⟩,
               (deleteSessionKind s cid "insight").1)) := rfl

theorem remove_chat_order_member_history (s : Store) (cid : String)
    (ctOpt : Option String) :
    (remove_chat_order_member s true cid ctOpt).history = s.history := by
  cases ctOpt <;> rfl

theorem remove_chat_order_member_meta (s : Store) (cid : String)
    (ctOpt : Option String) :
    (remove_chat_order_member s true cid ctOpt).meta = s.meta := by
  cases ctOpt <;> rfl

theorem deleteSessionKind_preserves_absent_hist (s : Store) (cid t k : String)
    (hh : afind s.history k = none) :
    afind (deleteSessionKind s cid t).1.history k = none := by
  rw [(deleteSessionKind_spec s cid t).2.2.1 k]
  split
  · rfl
  · exact hh

theorem deleteSessionKind_preserves_absent_meta (s : Store) (cid t k : String)
    (hm : afind s.meta k = none) :
    afind (deleteSessionKind s cid t).1.meta k = none := by
  rw [(deleteSessionKind_spec s cid t).2.2.2 k]
  split
  · rfl
  · exact hm

theorem deleteSession_none_store_history (s : Store) (cid : String) :
    ((deleteSession s cid none).2).history
      = (deleteSessionKind (deleteSessionKind s cid "question").1 cid "insight").1.history := by
  rw [deleteSession_none_eq]
  split
  · exact remove_chat_order_member_history _ _ _
  · rfl

theorem deleteSession_none_store_meta (s : Store) (cid : String) :
    ((deleteSession s cid none).2).meta
      = (deleteSessionKind (deleteSessionKind s cid "question").1 cid "insight").1.meta := by
  rw [deleteSession_none_eq]
  split
  · exact remove_chat_order_member_meta _ _ _
  · rfl

theorem deleteSession_q_store_history (s : Store) (cid : String) :
    ((deleteSession s cid (some CType.question)).2).history
      = (deleteSessionKind s cid "question").1.history := by
  rw [deleteSession_q_eq]
  split
  · exact remove_chat_order_member_history _ _ _
  · rfl

theorem deleteSession_q_store_meta (s : Store) (cid : String) :
    ((deleteSession s cid (some CType.question)).2).meta
      = (deleteSessionKind s cid "question").1.meta := by
  rw [deleteSession_q_eq]
  split
  · exact remove_chat_order_member_meta _ _ _
  · rfl

theorem deleteSession_i_store_history (s : Store) (cid : String) :
    ((deleteSession s cid (some CType.insight)).2).history
      = (deleteSessionKind s cid "insight").1.history := by
  rw [deleteSession_i_eq]
  split
  · exact remove_chat_order_member_history _ _ _
  · rfl

theorem deleteSession_i_store_meta (s : Store) (cid : String) :
    ((deleteSession s cid (some CType.insight)).2).meta
      = (deleteSessionKind s cid "insight").1.meta := by
  rw [deleteSession_i_eq]
  split
  · exact remove_chat_order_member_meta _ _ _
  · rfl

theorem deleteSessionKind_insight_hist_of_q (s : Store) (cid : String) :
    afind (deleteSessionKind s cid "question").1.history (redis_key cid "insight")
      = afind s.history (redis_key cid "insight") := by
  rw [(deleteSessionKind_spec s cid "question").2.2.1]
  rw [if_neg (redis_key_qi_ne cid)]

theorem deleteSessionKind_insight_meta_of_q (s : Store) (cid : String) :
    afind (deleteSessionKind s cid "question").1.meta (chat_meta_key cid "insight")
      = afind s.meta (chat_meta_key cid "insight") := by
  rw [(deleteSessionKind_spec s cid "question").2.2.2]
  rw [if_neg (chat_meta_key_qi_ne cid)]

/-- After a both-kind delete, every history and meta key of the conversation
is gone, whatever existed before. -/
theorem deleteSession_none_absent (s : Store) (cid : String) :
    ∀ t ∈ DEFAULT_CHAT_TYPES,
      afind ((deleteSession s cid none).2).history (redis_key cid t) = none
      ∧ afind ((deleteSession s cid none).2).meta (chat_meta_key cid t) = none := by
  intro t ht
  have ht' : t = "question" ∨ t = "insight" := by
    simpa [DEFAULT_CHAT_TYPES] using ht
  constructor
  · rw [deleteSession_none_store_history]
    rw [(deleteSessionKind_spec _ cid "insight").2.2.1]
    rcases ht' with h | h
    · subst h
      rw [if_neg (fun hx => redis_key_qi_ne cid hx.symm)]
      rw [(deleteSessionKind_spec s cid "question").2.2.1]
      rw [if_pos rfl]
    · subst h
      rw [if_pos rfl]
  · rw [deleteSession_none_store_meta]
    rw [(deleteSessionKind_spec _ cid "insight").2.2.2]
    rcases ht' with h | h
    · subst h
      rw [if_neg (fun hx => chat_meta_key_qi_ne cid hx.symm)]
      rw [(deleteSessionKind_spec s cid "question").2.2.2]
      rw [if_pos rfl]
    · subst h
      rw [if_pos rfl]

/-- The 404 indication of `delete_session` holds exactly when none of the
requested kinds' keys existed. -/
theorem deleteSession_notfound_iff (s : Store) (cid : String) (ctOpt : Option CType) :
    (deleteSession s cid ctOpt).1 = Except.error (ApiErr.http 404)
      ↔ ∀ t ∈ processedTypes ctOpt,
          afind s.history (redis_key cid t) = none
          ∧ afind s.meta (chat_meta_key cid t) = none := by
  cases ctOpt with
  | none =>
    have hq := deleteSessionKind_spec s cid "question"
    have hi := deleteSessionKind_spec (deleteSessionKind s cid "question").1 cid "insight"
    have hih := deleteSessionKind_insight_hist_of_q s cid
    have him := deleteSessionKind_insight_meta_of_q s cid
    rw [deleteSession_none_eq]
    have hcond : ((deleteSessionKind s cid "question").2.1
          + (deleteSessionKind (deleteSessionKind s cid "question").1 cid "insight").2.1
          + ((deleteSessionKind s cid "question").2.2
          + (deleteSessionKind (deleteSessionKind s cid "question").1 cid "insight").2.2) = 0)
        ↔ (afind s.history (redis_key cid "question") = none
            ∧ afind s.meta (chat_meta_key cid "question") = none
            ∧ afind s.history (redis_key cid "insight") = none
            ∧ afind s.meta (chat_meta_key cid "insight") = none) := by
      rw [hq.1, hq.2.1, hi.1, hi.2.1, hih, him]
      cases afind s.history (redis_key cid "question") <;>
        cases afind s.meta (chat_meta_key cid "question") <;>
          cases afind s.history (redis_key cid "insight") <;>
            cases afind s.meta (chat_meta_key cid "insight") <;> simp
    by_cases hc : ((deleteSessionKind s cid "question").2.1
          + (deleteSessionKind (deleteSessionKind s cid "question").1 cid "insight").2.1
          + ((deleteSessionKind s cid "question").2.2
          + (deleteSessionKind (deleteSessionKind s cid "question").1 cid "insight").2.2) = 0)
    · rw [if_pos hc]
      refine iff_of_true rfl ?_
      intro t ht
      have h4 := hcond.1 hc
      have ht' : t = "question" ∨ t = "insight" := by
        simpa [processedTypes, DEFAULT_CHAT_TYPES] using ht
      rcases ht' with h | h
      · subst h; exact ⟨h4.1, h4.2.1⟩
      · subst h; exact ⟨h4.2.2.1, h4.2.2.2⟩
    · rw [if_neg hc]
      refine iff_of_false (by simp) ?_
      intro hall
      have h1 := hall "question" (by simp [processedTypes, DEFAULT_CHAT_TYPES])
      have h2 := hall "insight" (by simp [processedTypes, DEFAULT_CHAT_TYPES])
      exact hc (hcond.2 ⟨h1.1, h1.2, h2.1, h2.2⟩)
  | some t0 =>
    cases t0 with
    | question =>
      have hq := deleteSessionKind_spec s cid "question"
      rw [deleteSession_q_eq]
      have hcond : ((deleteSessionKind s cid "question").2.1 + 0
            + ((deleteSessionKind s cid "question").2.2 + 0) = 0)
          ↔ (afind s.history (redis_key cid "question") = none
              ∧ afind s.meta (chat_meta_key cid "question") = none) := by
        rw [hq.1, hq.2.1]
        cases afind s.history (redis_key cid "question") <;>
          cases afind s.meta (chat_meta_key cid "question") <;> simp
      by_cases hc : ((deleteSessionKind s cid "question").2.1 + 0
            + ((deleteSessionKind s cid "question").2.2 + 0) = 0)
      · rw [if_pos hc]
        refine iff_of_true rfl ?_
        intro t ht
        have ht' : t = "question" := by
          simpa [processedTypes, CType.str] using ht
        subst ht'
        exact hcond.1 hc
      · rw [if_neg hc]
        refine iff_of_false (by simp) ?_
        intro hall
        have h1 := hall "question" (by simp [processedTypes, CType.str])
        exact hc (hcond.2 h1)
    | insight =>
      have hq := deleteSessionKind_spec s cid "insight"
      rw [deleteSession_i_eq]
      have hcond : (0 + (deleteSessionKind s cid "insight").2.1
            + (0 + (deleteSessionKind s cid "insight").2.2) = 0)
          ↔ (afind s.history (redis_key cid "insight") = none
              ∧ afind s.meta (chat_meta_key cid "insight") = none) := by
        rw [hq.1, hq.2.1]
        cases afind s.history (redis_key cid "insight") <;>
          cases afind s.meta (chat_meta_key cid "insight") <;> simp
      by_cases hc : (0 + (deleteSessionKind s cid "insight").2.1
            + (0 + (deleteSessionKind s cid "insight").2.2) = 0)
      · rw [if_pos hc]
        refine iff_of_true rfl ?_
        intro t ht
        have ht' : t = "insight" := by
          simpa [processedTypes, CType.str] using ht
        subst ht'
        exact hcond.1 hc
      · rw [if_neg hc]
        refine iff_of_false (by simp) ?_
        intro hall
        have h1 := hall "insight" (by simp [processedTypes, CType.str])
        exact hc (hcond.2 h1)

/-- On the success path the returned counts are exactly the numbers of keys
that existed under the processed kinds. -/
theorem deleteSession_counts (s : Store) (cid : String) (ctOpt : Option CType)
    (r : DeleteResult) (h : (deleteSession s cid ctOpt).1 = Except.ok r) :
    r.message_lists_deleted = histCountOf s cid (processedTypes ctOpt)
    ∧ r.meta_keys_deleted = metaCountOf s cid (processedTypes ctOpt) := by
  cases ctOpt with
  | none =>
    have hq := deleteSessionKind_spec s cid "question"
    have hi := deleteSessionKind_spec (deleteSessionKind s cid "question").1 cid "insight"
    have hih := deleteSessionKind_insight_hist_of_q s cid
    have him := deleteSessionKind_insight_meta_of_q s cid
    rw [deleteSession_none_eq] at h
    by_cases hcb : ((deleteSessionKind s cid "question").2.1
          + (deleteSessionKind (deleteSessionKind s cid "question").1 cid "insight").2.1
          + ((deleteSessionKind s cid "question").2.2
          + (deleteSessionKind (deleteSessionKind s cid "question").1 cid "insight").2.2) = 0)
    · rw [if_pos hcb] at h
      exact absurd h (by simp)
    · rw [if_neg hcb] at h
      have hr : r = ⟨(deleteSessionKind s cid "question").2.1
          + (deleteSessionKind (deleteSessionKind s cid "question").1 cid "insight").2.1,
          (deleteSessionKind s cid "question").2.2
          + (deleteSessionKind (deleteSessionKind s cid "question").1 cid "insight").2.2⟩ := by
        have h' := h
        simp at h'
        exact h'.symm
      subst hr
      constructor
      · simp only [histCountOf, processedTypes, DEFAULT_CHAT_TYPES, List.map, List.sum_cons,
          List.sum_nil]
        rw [hq.1, hi.1, hih]
        ring
      · simp only [metaCountOf, processedTypes, DEFAULT_CHAT_TYPES, List.map, List.sum_cons,
          List.sum_nil]
        rw [hq.2.1, hi.2.1, him]
        ring
  | some t0 =>
    cases t0 with
    | question =>
      have hq := deleteSessionKind_spec s cid "question"
      rw [deleteSession_q_eq] at h
      by_cases hcb : ((deleteSessionKind s cid "question").2.1 + 0
            + ((deleteSessionKind s cid "question").2.2 + 0) = 0)
      · rw [if_pos hcb] at h
        exact absurd h (by simp)
      · rw [if_neg hcb] at h
        have hr : r = ⟨(deleteSessionKind s cid "question").2.1,
            (deleteSessionKind s cid "question").2.2⟩ := by
          have h' := h
          simp at h'
          exact h'.symm
        subst hr
        constructor
        · simp [histCountOf, processedTypes, CType.str, hq.1]
        · simp [metaCountOf, processedTypes, CType.str, hq.2.1]
    | insight =>
      have hq := deleteSessionKind_spec s cid "insight"
      rw [deleteSession_i_eq] at h
      by_cases hcb : (0 + (deleteSessionKind s cid "insight").2.1
            + (0 + (deleteSessionKind s cid "insight").2.2) = 0)
      · rw [if_pos hcb] at h
        exact absurd h (by simp)
      · rw [if_neg hcb] at h
        have hr : r = ⟨(deleteSessionKind s cid "insight").2.1,
            (deleteSessionKind s cid "insight").2.2⟩ := by
          have h' := h
          simp at h'
          exact h'.symm
        subst hr
        constructor
        · simp [histCountOf, processedTypes, CType.str, hq.1]
        · simp [metaCountOf, processedTypes, CType.str, hq.2.1]

theorem is_orphan_congr (s s0 : Store) (hh : s.history = s0.history)
    (hm : s.meta = s0.meta) (t cid : String) :
    is_orphan s t cid = is_orphan s0 t cid := by
  simp [is_orphan, histExists, metaExists, hh, hm]

theorem typeAllowed_cases (inclQ inclI : Bool) (t : String)
    (h : typeAllowed inclQ inclI t = true) : t = "question" ∨ t = "insight" := by
  simp only [typeAllowed, Bool.or_eq_true, Bool.and_eq_true] at h
  rcases h with ⟨_, h⟩ | ⟨_, h⟩
  · exact Or.inl (by simpa using h)
  · exact Or.inr (by simpa using h)

theorem listLoop_preserves (inclQ inclI : Bool) (toIso : Nat → String)
    (tsValid : String → Bool) (nowIso : String) :
    ∀ (members : List (String × Nat)) (seen : List String) (s : Store)
      (acc : List ChatListItem),
      ((listLoop inclQ inclI toIso tsValid nowIso members seen s acc).2.2).history
          = s.history
      ∧ ((listLoop inclQ inclI toIso tsValid nowIso members seen s acc).2.2).meta
          = s.meta := by
  intro members
  induction members with
  | nil => intro seen s acc; exact ⟨rfl, rfl⟩
  | cons ms rest ih =>
    intro seen s acc
    obtain ⟨member, score⟩ := ms
    simp only [listLoop]
    cases hps : pySplit1 ':' member with
    | none => exact ih seen s acc
    | some p =>
      obtain ⟨ctype, cid⟩ := p
      by_cases h1 : typeAllowed inclQ inclI ctype = true
      · simp only [h1, Bool.not_true, Bool.false_eq_true, if_false]
        by_cases h2 : seen.contains (ctype ++ ":" ++ cid) = true
        · simp only [h2, if_true]
          exact ih seen s acc
        · have h2' : seen.contains (ctype ++ ":" ++ cid) = false := by
            revert h2; cases seen.contains (ctype ++ ":" ++ cid) <;> simp
          simp only [h2', Bool.false_eq_true, if_false]
          by_cases h3 : is_orphan s ctype cid = true
          · simp only [h3, if_true]
            have hrm := ih seen (remove_chat_order_member s true cid (some ctype)) acc
            refine ⟨?_, ?_⟩
            · rw [hrm.1]
              exact remove_chat_order_member_history s cid (some ctype)
            · rw [hrm.2]
              exact remove_chat_order_member_meta s cid (some ctype)
          · have h3' : is_orphan s ctype cid = false := by
              revert h3; cases is_orphan s ctype cid <;> simp
            simp only [h3', Bool.false_eq_true, if_false]
            exact ih _ s _
      · have h1' : typeAllowed inclQ inclI ctype = false := by
          revert h1; cases typeAllowed inclQ inclI ctype <;> simp
        simp only [h1', Bool.not_false, if_true]
        exact ih seen s acc

theorem listLoop_items (inclQ inclI : Bool) (toIso : Nat → String)
    (tsValid : String → Bool) (nowIso : String) :
    ∀ (members : List (String × Nat)) (seen : List String) (s s0 : Store)
      (acc : List ChatListItem) (item : ChatListItem),
      s.history = s0.history → s.meta = s0.meta →
      item ∈ (listLoop inclQ inclI toIso tsValid nowIso members seen s acc).1 →
      item ∈ acc
      ∨ ∃ t, typeAllowed inclQ inclI t = true
          ∧ is_orphan s0 t item.chat_id = false := by
  intro members
  induction members with
  | nil =>
    intro seen s s0 acc item _ _ hmem
    exact Or.inl hmem
  | cons ms rest ih =>
    intro seen s s0 acc item hh hm hmem
    obtain ⟨member, score⟩ := ms
    simp only [listLoop] at hmem
    cases hps : pySplit1 ':' member with
    | none =>
      rw [hps] at hmem
      exact ih seen s s0 acc item hh hm hmem
    | some p =>
      obtain ⟨ctype, cid⟩ := p
      rw [hps] at hmem
      by_cases h1 : typeAllowed inclQ inclI ctype = true
      · simp only [h1, Bool.not_true, Bool.false_eq_true, if_false] at hmem
        by_cases h2 : seen.contains (ctype ++ ":" ++ cid) = true
        · simp only [h2, if_true] at hmem
          exact ih seen s s0 acc item hh hm hmem
        · have h2' : seen.contains (ctype ++ ":" ++ cid) = false := by
            revert h2; cases seen.contains (ctype ++ ":" ++ cid) <;> simp
          simp only [h2', Bool.false_eq_true, if_false] at hmem
          by_cases h3 : is_orphan s ctype cid = true
          · simp only [h3, if_true] at hmem
            refine ih _ _ s0 acc item ?_ ?_ hmem
            · rw [remove_chat_order_member_history s cid (some ctype)]
              exact hh
            · rw [remove_chat_order_member_meta s cid (some ctype)]
              exact hm
          · have h3' : is_orphan s ctype cid = false := by
              revert h3; cases is_orphan s ctype cid <;> simp
            simp only [h3', Bool.false_eq_true, if_false] at hmem
            have hres := ih _ s s0 _ item hh hm hmem
            rcases hres with hacc | hex
            · rcases List.mem_append.1 hacc with hacc' | hnew
              · exact Or.inl hacc'
              · have hitem : item.chat_id = cid := by
                  have : item = ⟨cid, _, none, some _⟩ := List.mem_singleton.1 hnew
                  rw [this]
                refine Or.inr ⟨ctype, h1, ?_⟩
                rw [hitem, ← is_orphan_congr s s0 hh hm ctype cid]
                exact h3'
            · exact Or.inr hex
      · have h1' : typeAllowed inclQ inclI ctype = false := by
          revert h1; cases typeAllowed inclQ inclI ctype <;> simp
        simp only [h1', Bool.not_false, if_true] at hmem
        exact ih seen s s0 acc item hh hm hmem

theorem fillLastAnswer_chat_id (s : Store) (item : ChatListItem) :
    (fillLastAnswer s item).chat_id = item.chat_id := by
  unfold fillLastAnswer
  split
  · rfl
  · split
    · rfl
    · rfl

/-- Every item `list_chats` emits comes from an allowed kind whose pair was
not an orphan in the store the listing started from. -/
theorem listChats_item_of_mem (s : Store) (inclI inclQ : Bool)
    (toIso : Nat → String) (tsValid : String → Bool) (nowIso : String)
    (parseTs : String → Option Nat) (nowScore : Nat) (item : ChatListItem)
    (hmem : item ∈ (listChats s inclI inclQ toIso tsValid nowIso parseTs nowScore).1) :
    ∃ t, typeAllowed inclQ inclI t = true ∧ is_orphan s t item.chat_id = false := by
  simp only [listChats, List.mem_map] at hmem
  obtain ⟨item0, hitem0, hfill⟩ := hmem
  have h0 := listLoop_items inclQ inclI toIso tsValid nowIso (sortDescZ s.order)
    [] s s [] item0 rfl rfl hitem0
  rcases h0 with habs | ⟨t, hta, horph⟩
  · exact absurd habs (List.not_mem_nil item0)
  · refine ⟨t, hta, ?_⟩
    rw [← hfill, fillLastAnswer_chat_id]
    exact horph

theorem deleteSession_preserves_absent (s : Store) (cid : String)
    (ctOpt : Option CType) (t : String)
    (hh : afind s.history (redis_key cid t) = none)
    (hm : afind s.meta (chat_meta_key cid t) = none) :
    afind ((deleteSession s cid ctOpt).2).history (redis_key cid t) = none
    ∧ afind ((deleteSession s cid ctOpt).2).meta (chat_meta_key cid t) = none := by
  cases ctOpt with
  | none =>
    constructor
    · rw [deleteSession_none_store_history]
      exact deleteSessionKind_preserves_absent_hist _ _ _ _
        (deleteSessionKind_preserves_absent_hist _ _ _ _ hh)
    · rw [deleteSession_none_store_meta]
      exact deleteSessionKind_preserves_absent_meta _ _ _ _
        (deleteSessionKind_preserves_absent_meta _ _ _ _ hm)
  | some t0 =>
    cases t0 with
    | question =>
      constructor
      · rw [deleteSession_q_store_history]
        exact deleteSessionKind_preserves_absent_hist _ _ _ _ hh
      · rw [deleteSession_q_store_meta]
        exact deleteSessionKind_preserves_absent_meta _ _ _ _ hm
    | insight =>
      constructor
      · rw [deleteSession_i_store_history]
        exact deleteSessionKind_preserves_absent_hist _ _ _ _ hh
      · rw [deleteSession_i_store_meta]
        exact deleteSessionKind_preserves_absent_meta _ _ _ _ hm

/-- C7: `delete_session` returns the counts of history and meta keys actually
removed and signals not-found exactly when both counts are zero (nothing
existed under any requested kind); after a both-kind delete — or any delete
of a conversation id that had no data at all, including a not-found delete —
a subsequent newest-first listing never references that conversation id. -/
theorem C7_delete_counts_notfound_listing :
    ∀ (s : Store) (chat_id : String) (ctOpt : Option CType),
      (∀ r, (deleteSession s chat_id ctOpt).1 = Except.ok r →
        r.message_lists_deleted = histCountOf s chat_id (processedTypes ctOpt)
        ∧ r.meta_keys_deleted = metaCountOf s chat_id (processedTypes ctOpt))
      ∧ ((deleteSession s chat_id ctOpt).1 = Except.error (ApiErr.http 404)
          ↔ ∀ t ∈ processedTypes ctOpt,
              afind s.history (redis_key chat_id t) = none
              ∧ afind s.meta (chat_meta_key chat_id t) = none)
      ∧ (∀ (inclI inclQ : Bool) (toIso : Nat → String) (tsValid : String → Bool)
            (ni : String) (pts : String → Option Nat) (ns : Nat) item,
          item ∈ (listChats ((deleteSession s chat_id none).2) inclI inclQ toIso
            tsValid ni pts ns).1 → item.chat_id ≠ chat_id)
      ∧ ((∀ t ∈ DEFAULT_CHAT_TYPES,
            afind s.history (redis_key chat_id t) = none
            ∧ afind s.meta (chat_meta_key chat_id t) = none) →
          ∀ (inclI inclQ : Bool) (toIso : Nat → String) (tsValid : String → Bool)
            (ni : String) (pts : String → Option Nat) (ns : Nat) item,
            item ∈ (listChats ((deleteSession s chat_id ctOpt).2) inclI inclQ toIso
              tsValid ni pts ns).1 → item.chat_id ≠ chat_id) := by
  intro s cid ctOpt
  refine ⟨fun r h => deleteSession_counts s cid ctOpt r h,
          deleteSession_notfound_iff s cid ctOpt, ?_, ?_⟩
  · intro inclI inclQ toIso tsValid ni pts ns item hmem heq
    obtain ⟨t, hta, horph⟩ := listChats_item_of_mem _ inclI inclQ toIso tsValid
      ni pts ns item hmem
    have ht' := typeAllowed_cases inclQ inclI t hta
    have habs : afind ((deleteSession s cid none).2).history (redis_key cid t) = none
        ∧ afind ((deleteSession s cid none).2).meta (chat_meta_key cid t) = none := by
      rcases ht' with h | h
      · subst h; exact deleteSession_none_absent s cid "question" (by simp [DEFAULT_CHAT_TYPES])
      · subst h; exact deleteSession_none_absent s cid "insight" (by simp [DEFAULT_CHAT_TYPES])
    have htrue : is_orphan ((deleteSession s cid none).2) t item.chat_id = true := by
      rw [heq]
      simp [is_orphan, histExists, metaExists, habs.1, habs.2]
    rw [htrue] at horph
    exact absurd horph (by simp)
  · intro hall inclI inclQ toIso tsValid ni pts ns item hmem heq
    obtain ⟨t, hta, horph⟩ := listChats_item_of_mem _ inclI inclQ toIso tsValid
      ni pts ns item hmem
    have ht' := typeAllowed_cases inclQ inclI t hta
    have hmemT : t ∈ DEFAULT_CHAT_TYPES := by
      rcases ht' with h | h <;> subst h <;> simp [DEFAULT_CHAT_TYPES]
    have h0 := hall t hmemT
    have habs := deleteSession_preserves_absent s cid ctOpt t h0.1 h0.2
    have htrue : is_orphan ((deleteSession s cid ctOpt).2) t item.chat_id = true := by
      rw [heq]
      simp [is_orphan, histExists, metaExists, habs.1, habs.2]
    rw [htrue] at horph
    exact absurd horph (by simp)

/-- C7 witness: on a concrete store with conversations "a" and "b", deleting
"a" across kinds removes one history and one meta key, and the subsequent
listing references only "b". -/
theorem C7_witness :
    ((⟨"b", "Bee", some "ab", some "T"⟩ : ChatListItem).chat_id ≠ "a")
    ∧ (DeleteResult.mk 1 1).message_lists_deleted
        = histCountOf C7WStore "a" (processedTypes none) := by
  constructor
  · exact (C7_delete_counts_notfound_listing C7WStore "a" none).2.2.1 true true
      (fun _ => "T") (fun _ => true) "N" (fun _ => none) 9
      ⟨"b", "Bee", some "ab", some "T"⟩ (by decide)
  · exact ((C7_delete_counts_notfound_listing C7WStore "a" none).1
      ⟨1, 1⟩ rfl).1

end SearchService

